import Mathlib

/-!
Verification of the zktecoMGMT device-synchronization core.

This file gives a shallow embedding of the progress tracker
(`src/tasks/models.py`), the attendance pairing engine
(`src/attendance/reports.py`), and the three background sync jobs
(`src/tasks/device_tasks.py`), and proves or refutes the frozen claims
about them.

Modelling conventions:
* Python's unbounded `int` is `Int` (or `Nat` for values that are
  manifestly non-negative indices/counts in the source).
* Django model instances are records; `obj.save(update_fields=[...])`
  is modelled by a pair (in-memory record, database row) where a save
  copies exactly the named fields from memory to the row.
* Fallible external operations (the device session) are an oracle of
  `Except String` results; Python exception text is the `String`.
* `f"{x}"` formatting is `toString`; Python truthiness of a string is
  the test `≠ ""`.
-/

namespace Zkteco

/-- Lifecycle status of a `TaskProgress` row (`STATUS_CHOICES`). -/
inductive TStatus where
  | pending | running | completed | failed | cancelled
deriving DecidableEq, Repr

/-- The `TaskProgress` Django model (`src/tasks/models.py`), restricted to
the fields the sync engine reads or writes.  Timestamp columns carry no
information used by any claim and are omitted. -/
structure TP where
  status : TStatus
  progress_current : Int
  progress_total : Int
  progress_percentage : Int
  success_count : Int
  error_count : Int
  message : String
  error_details : List String
deriving DecidableEq, Repr

/-- A freshly created tracker row, as `tasks/views.py` creates it
(`status='pending'`, all counters at their defaults). -/
def TP.fresh : TP :=
  { status := .pending, progress_current := 0, progress_total := 0
    progress_percentage := 0, success_count := 0, error_count := 0
    message := "", error_details := [] }

/-- Python `int((current / total) * 100)`: exact rational value truncated
toward zero, i.e. T-division of `100 * current` by `total`. -/
def pyPct (current total : Int) : Int := Int.tdiv (100 * current) total

/-- `TaskProgress.update_progress(current, total=None, message=None)`
(in-memory field updates; the save is handled by `TPState.update_progress`). -/
def TP.update_progress (tp : TP) (current : Int) (total : Option Int)
    (message : Option String) : TP :=
  let tp := { tp with progress_current := current }
  let tp :=
    match total with
    | some t => { tp with progress_total := t }
    | none => tp
  let tp :=
    if tp.progress_total > 0 then
      { tp with progress_percentage := pyPct tp.progress_current tp.progress_total }
    else tp
  match message with
  | some m => if m ≠ "" then { tp with message := m } else tp
  | none => tp

/-- `TaskProgress.mark_running` (in-memory part). -/
def TP.mark_running (tp : TP) : TP := { tp with status := .running }

/-- `TaskProgress.mark_completed(message=None)` (in-memory part). -/
def TP.mark_completed (tp : TP) (message : Option String) : TP :=
  let tp := { tp with status := .completed, progress_percentage := 100 }
  match message with
  | some m => if m ≠ "" then { tp with message := m } else tp
  | none => tp

/-- `TaskProgress.mark_failed(error_message)` (in-memory part; note it does
not touch `progress_percentage`). -/
def TP.mark_failed (tp : TP) (error_message : String) : TP :=
  { tp with status := .failed, message := error_message }

/-- `TaskProgress.add_error(error_detail)` (in-memory part). -/
def TP.add_error (tp : TP) (error_detail : String) : TP :=
  { tp with error_details := tp.error_details ++ [error_detail]
          , error_count := tp.error_count + 1 }

/-- The in-memory `TaskProgress` instance held by a job together with its
persisted database row.  `save(update_fields=[...])` copies exactly the
listed fields from `mem` to `db`. -/
structure TPState where
  mem : TP
  db : TP
deriving DecidableEq, Repr

/-- `update_progress` with its
`save(update_fields=['progress_current','progress_total','progress_percentage','message'])`. -/
def TPState.update_progress (s : TPState) (current : Int) (total : Option Int)
    (message : Option String) : TPState :=
  let mem := s.mem.update_progress current total message
  { mem
    db := { s.db with progress_current := mem.progress_current
                    , progress_total := mem.progress_total
                    , progress_percentage := mem.progress_percentage
                    , message := mem.message } }

/-- `mark_running` with `save(update_fields=['status','started_at'])`. -/
def TPState.mark_running (s : TPState) : TPState :=
  let mem := s.mem.mark_running
  { mem, db := { s.db with status := mem.status } }

/-- `mark_completed` with
`save(update_fields=['status','completed_at','progress_percentage','message'])`. -/
def TPState.mark_completed (s : TPState) (message : Option String) : TPState :=
  let mem := s.mem.mark_completed message
  { mem
    db := { s.db with status := mem.status
                    , progress_percentage := mem.progress_percentage
                    , message := mem.message } }

/-- `mark_failed` with `save(update_fields=['status','completed_at','message'])`
(the percentage is not part of the save, and is not modified in memory). -/
def TPState.mark_failed (s : TPState) (error_message : String) : TPState :=
  let mem := s.mem.mark_failed error_message
  { mem, db := { s.db with status := mem.status, message := mem.message } }

/-- `add_error` with `save(update_fields=['error_details','error_count'])`. -/
def TPState.add_error (s : TPState) (error_detail : String) : TPState :=
  let mem := s.mem.add_error error_detail
  { mem
    db := { s.db with error_details := mem.error_details
                    , error_count := mem.error_count } }

/-! ### Attendance pairing engine (`src/attendance/reports.py`)

The pairing computation operates on the events of one employee on one
calendar day; an event is represented by its time of day in minutes
(rational, so second-level timestamps are exact) plus an identity tag. -/

/-- One attendance event of a single employee on a single day.  `tod` is
the local time of day in minutes after midnight; `tag` distinguishes
events (database identity). -/
structure DayEvent where
  tod : ℚ
  tag : Nat
deriving DecidableEq, Repr

instance : Inhabited DayEvent := ⟨⟨0, 0⟩⟩

/-- `filter_working_hours`: keep events with
`time(6,0) <= event.timestamp.time() <= time(22,0)`
(6:00 = 360 min, 22:00 = 1320 min, both inclusive). -/
def filter_working_hours (events : List DayEvent) : List DayEvent :=
  events.filter (fun e => decide (360 ≤ e.tod) && decide (e.tod ≤ 1320))

/-- `sorted(events, key=lambda e: e.timestamp)`: stable ascending sort by
timestamp. -/
def sortByTimestamp (events : List DayEvent) : List DayEvent :=
  List.insertionSort (fun a b => a.tod ≤ b.tod) events

/-- The inner `while j < len(sorted_events)` scan of `pair_events`:
starting at index `j`, the index of the first event whose delta from
`first` is at least 30 minutes, if any. -/
def findExitIdx (l : List DayEvent) (first : DayEvent) (j : Nat) : Option Nat :=
  if h : j < l.length then
    if 30 ≤ (l.getD j default).tod - first.tod then some j
    else findExitIdx l first (j + 1)
  else none
termination_by l.length - j

theorem findExitIdx_ge (l : List DayEvent) (f : DayEvent) :
    ∀ j k, findExitIdx l f j = some k → j ≤ k ∧ k < l.length := by
  intro j k
  generalize hd : l.length - j = d
  induction d generalizing j with
  | zero =>
    intro h
    rw [findExitIdx] at h
    rw [dif_neg (by omega)] at h
    exact absurd h (by simp)
  | succ n ih =>
    intro h
    rw [findExitIdx] at h
    by_cases hj : j < l.length
    · rw [dif_pos hj] at h
      by_cases hc : 30 ≤ (l.getD j default).tod - f.tod
      · rw [if_pos hc] at h
        cases h
        omega
      · rw [if_neg hc] at h
        have := ih (j + 1) (by omega) h
        omega
    · rw [dif_neg hj] at h
      exact absurd h (by simp)

/-- The outer `while i < len(sorted_events) - 1` loop of `pair_events`,
producing `(first_event, second_event, delta_minutes)` triples.  On a
successful pair at index `j` the loop resumes at `i = j + 1`; otherwise
it advances by one. -/
def pairLoop (l : List DayEvent) (i : Nat) : List (DayEvent × DayEvent × ℚ) :=
  if h : i + 1 < l.length then
    let first := l.getD i default
    match hj : findExitIdx l first (i + 1) with
    | some j =>
      let second := l.getD j default
      (first, second, second.tod - first.tod) :: pairLoop l (j + 1)
    | none => pairLoop l (i + 1)
  else []
termination_by l.length - i
decreasing_by
  · have := findExitIdx_ge l first (i + 1) j hj
    omega
  · omega

/-- `pair_events(events)` from `src/attendance/reports.py`: early return on
fewer than two events, otherwise the index-based greedy pairing over the
sorted list. -/
def pair_events (events : List DayEvent) : List (DayEvent × DayEvent × ℚ) :=
  if events.length < 2 then []
  else pairLoop (sortByTimestamp events) 0

/-! #### Reference algorithm, modelled from the spec's words (§4.5)

Step 1: keep only events whose time of day lies in [06:00, 22:00]
inclusive.  Step 2: sort ascending by timestamp.  Step 3: greedy pairing
with minimum-gap merge, expressed recursively on the sorted list. -/

/-- Spec step 1: the working-hours window predicate. -/
def specWindow (e : DayEvent) : Bool :=
  decide (360 ≤ e.tod) && decide (e.tod ≤ 1320)

/-- Spec step 3, inner scan: the first later event whose delta from
`first` is ≥ 30 minutes, together with the events after it (scanned-over
events inside the 30-minute dead zone are discarded). -/
def findExit (first : DayEvent) : List DayEvent → Option (DayEvent × List DayEvent)
  | [] => none
  | e :: rest =>
    if 30 ≤ e.tod - first.tod then some (e, rest) else findExit first rest

theorem findExit_len (f : DayEvent) :
    ∀ (l : List DayEvent) (x : DayEvent) (rest : List DayEvent),
      findExit f l = some (x, rest) → rest.length < l.length := by
  intro l
  induction l with
  | nil => intro x rest h; exact absurd h (by simp [findExit])
  | cons e tl ih =>
    intro x rest h
    rw [findExit] at h
    by_cases hc : 30 ≤ e.tod - f.tod
    · rw [if_pos hc] at h
      cases h
      simp
    · rw [if_neg hc] at h
      have := ih x rest h
      simp
      omega

/-- Spec step 3: starting from the head event, scan forward for the first
qualifying exit; pair with it and resume after the exit, or, if none
exists, leave the head unpaired and advance by one. -/
def greedyPairs : List DayEvent → List (DayEvent × DayEvent × ℚ)
  | [] => []
  | e :: rest =>
    match hf : findExit e rest with
    | some (x, after) => (e, x, x.tod - e.tod) :: greedyPairs after
    | none => greedyPairs rest
termination_by l => l.length
decreasing_by
  · have := findExit_len e rest x after hf
    simp
    omega
  · simp

/-- The full reference pairing computation as the spec words it:
filter to the window, sort ascending, then greedy pairing. -/
def spec_pairing (events : List DayEvent) : List (DayEvent × DayEvent × ℚ) :=
  greedyPairs (sortByTimestamp (events.filter specWindow))

/-! #### Equivalence of the loop implementation and the reference algorithm -/

theorem greedyPairs_nil : greedyPairs [] = [] := by
  rw [greedyPairs]

theorem greedyPairs_cons_none (e : DayEvent) (rest : List DayEvent)
    (hf : findExit e rest = none) :
    greedyPairs (e :: rest) = greedyPairs rest := by
  rw [greedyPairs]
  split
  · next heq => rw [hf] at heq; exact absurd heq (by simp)
  · rfl

theorem greedyPairs_cons_some (e x : DayEvent) (rest after : List DayEvent)
    (hf : findExit e rest = some (x, after)) :
    greedyPairs (e :: rest) = (e, x, x.tod - e.tod) :: greedyPairs after := by
  rw [greedyPairs]
  split
  · next heq =>
      rw [hf] at heq
      cases heq
      rfl
  · next heq => rw [hf] at heq; exact absurd heq (by simp)

theorem greedyPairs_short (l : List DayEvent) (h : l.length ≤ 1) :
    greedyPairs l = [] := by
  match l with
  | [] => exact greedyPairs_nil
  | [e] =>
    rw [greedyPairs_cons_none e [] (by rw [findExit])]
    exact greedyPairs_nil
  | e :: x :: tl => simp at h

theorem pairLoop_stop (l : List DayEvent) (i : Nat) (h : ¬ i + 1 < l.length) :
    pairLoop l i = [] := by
  rw [pairLoop, dif_neg h]

theorem pairLoop_none (l : List DayEvent) (i : Nat) (h : i + 1 < l.length)
    (hj : findExitIdx l (l.getD i default) (i + 1) = none) :
    pairLoop l i = pairLoop l (i + 1) := by
  rw [pairLoop, dif_pos h]
  dsimp only
  split
  · next heq => rw [hj] at heq; exact absurd heq (by simp)
  · rfl

theorem pairLoop_some (l : List DayEvent) (i j : Nat) (h : i + 1 < l.length)
    (hj : findExitIdx l (l.getD i default) (i + 1) = some j) :
    pairLoop l i =
      (l.getD i default, l.getD j default,
        (l.getD j default).tod - (l.getD i default).tod) :: pairLoop l (j + 1) := by
  rw [pairLoop, dif_pos h]
  dsimp only
  split
  · next heq =>
      rw [hj] at heq
      cases heq
      rfl
  · next heq => rw [hj] at heq; exact absurd heq (by simp)

/-- The inner scans agree: `findExitIdx` from index `j` matches `findExit`
on the suffix `l.drop j`. -/
theorem findExit_drop (l : List DayEvent) (f : DayEvent) :
    ∀ j, (findExitIdx l f j = none → findExit f (l.drop j) = none) ∧
      (∀ k, findExitIdx l f j = some k →
        j ≤ k ∧ k < l.length ∧
        findExit f (l.drop j) = some (l.getD k default, l.drop (k + 1))) := by
  intro j
  generalize hd : l.length - j = d
  induction d generalizing j with
  | zero =>
    refine ⟨fun _ => ?_, fun k h => ?_⟩
    · rw [List.drop_eq_nil_of_le (by omega), findExit]
    · rw [findExitIdx, dif_neg (by omega)] at h
      exact absurd h (by simp)
  | succ n ih =>
    have hj : j < l.length := by omega
    have hdrop : l.drop j = l.getD j default :: l.drop (j + 1) := by
      rw [List.getD_eq_getElem l default hj]
      exact List.drop_eq_getElem_cons hj
    refine ⟨fun h => ?_, fun k h => ?_⟩
    · rw [findExitIdx, dif_pos hj] at h
      by_cases hc : 30 ≤ (l.getD j default).tod - f.tod
      · rw [if_pos hc] at h
        exact absurd h (by simp)
      · rw [if_neg hc] at h
        rw [hdrop, findExit, if_neg hc]
        exact (ih (j + 1) (by omega)).1 h
    · rw [findExitIdx, dif_pos hj] at h
      by_cases hc : 30 ≤ (l.getD j default).tod - f.tod
      · rw [if_pos hc] at h
        cases h
        exact ⟨Nat.le_refl _, hj, by rw [hdrop, findExit, if_pos hc]⟩
      · rw [if_neg hc] at h
        obtain ⟨h1, h2, h3⟩ := (ih (j + 1) (by omega)).2 k h
        exact ⟨by omega, h2, by rw [hdrop, findExit, if_neg hc]; exact h3⟩

/-- The outer loop from index `i` computes the reference algorithm on the
suffix `l.drop i`. -/
theorem pairLoop_eq_greedy (l : List DayEvent) :
    ∀ i, pairLoop l i = greedyPairs (l.drop i) := by
  intro i
  generalize hd : l.length - i = d
  induction d using Nat.strong_induction_on generalizing i with
  | _ d ih =>
    by_cases h : i + 1 < l.length
    · have hi : i < l.length := by omega
      have hdrop : l.drop i = l.getD i default :: l.drop (i + 1) := by
        rw [List.getD_eq_getElem l default hi]
        exact List.drop_eq_getElem_cons hi
      match hj : findExitIdx l (l.getD i default) (i + 1) with
      | some j =>
        obtain ⟨hj1, hj2, hj3⟩ := (findExit_drop l (l.getD i default) (i + 1)).2 j hj
        rw [pairLoop_some l i j h hj, hdrop,
          greedyPairs_cons_some _ _ _ _ hj3,
          ih (l.length - (j + 1)) (by omega) (j + 1) rfl]
      | none =>
        have hnone := (findExit_drop l (l.getD i default) (i + 1)).1 hj
        rw [pairLoop_none l i h hj, hdrop,
          greedyPairs_cons_none _ _ hnone,
          ih (l.length - (i + 1)) (by omega) (i + 1) rfl]
    · rw [pairLoop_stop l i h]
      have : (l.drop i).length ≤ 1 := by
        rw [List.length_drop]
        omega
      exact (greedyPairs_short _ this).symm

/-- C3: the code's pairing computation (window filter + `pair_events`'
index-based loop) equals the spec's reference algorithm (filter, sort,
recursive greedy pairing with minimum-gap merge). -/
theorem C3_pairing_matches_reference (events : List DayEvent) :
    pair_events (filter_working_hours events) = spec_pairing events := by
  unfold pair_events spec_pairing
  have hfw : filter_working_hours events = events.filter specWindow := rfl
  rw [hfw]
  by_cases hlen : (events.filter specWindow).length < 2
  · rw [if_pos hlen]
    refine (greedyPairs_short _ ?_).symm
    rw [sortByTimestamp, List.length_insertionSort]
    omega
  · rw [if_neg hlen]
    have h := pairLoop_eq_greedy (sortByTimestamp (events.filter specWindow)) 0
    simpa using h

/-! #### The 09:00 / 09:05 / 17:00 example (claim C2) -/

/-- Event at 09:00 (540 minutes). -/
def demo900 : DayEvent := ⟨540, 0⟩
/-- Event at 09:05 (545 minutes). -/
def demo905 : DayEvent := ⟨545, 1⟩
/-- Event at 17:00 (1020 minutes). -/
def demo1700 : DayEvent := ⟨1020, 2⟩
/-- The three events of the example, one employee, one day. -/
def demoEvents : List DayEvent := [demo900, demo905, demo1700]

theorem demo_filter_eval : filter_working_hours demoEvents = demoEvents := by
  norm_num [filter_working_hours, demoEvents, demo900, demo905, demo1700,
    List.filter]

theorem demo_sort_eval : sortByTimestamp demoEvents = demoEvents := by
  norm_num [sortByTimestamp, demoEvents, demo900, demo905, demo1700,
    List.insertionSort, List.orderedInsert]

theorem demo_findExit_eval : findExitIdx demoEvents demo900 1 = some 2 := by
  rw [findExitIdx, dif_pos (by norm_num [demoEvents])]
  rw [if_neg (by norm_num [demoEvents, demo900, demo905])]
  rw [findExitIdx, dif_pos (by norm_num [demoEvents])]
  rw [if_pos (by norm_num [demoEvents, demo900, demo1700])]

theorem demo_pairs_eval :
    pair_events (filter_working_hours demoEvents) =
      [(demo900, demo1700, 480)] := by
  rw [demo_filter_eval]
  rw [pair_events, if_neg (by norm_num [demoEvents])]
  rw [demo_sort_eval]
  have h0 : demoEvents.getD 0 default = demo900 := rfl
  have hj : findExitIdx demoEvents (demoEvents.getD 0 default) (0 + 1) = some 2 := by
    rw [h0]
    exact demo_findExit_eval
  rw [pairLoop_some demoEvents 0 2 (by norm_num [demoEvents]) hj]
  rw [pairLoop_stop demoEvents 3 (by norm_num [demoEvents])]
  norm_num [demoEvents, demo900, demo1700]

/-- C2 counterexample: on events at 09:00, 09:05 and 17:00 the pairing
does NOT return a pair whose entry is the 09:05 event with duration 475;
the single returned pair starts at the 09:00 event. -/
theorem C2_counterexample :
    pair_events (filter_working_hours demoEvents) ≠ [(demo905, demo1700, 475)] ∧
    ¬ ∃ p : DayEvent × DayEvent × ℚ,
        pair_events (filter_working_hours demoEvents) = [p] ∧ p.1 = demo905 := by
  rw [demo_pairs_eval]
  constructor
  · intro h
    have := List.head_eq_of_cons_eq h
    simp [demo900, demo905, Prod.ext_iff] at this
  · rintro ⟨p, hp, hp1⟩
    have : p = (demo900, demo1700, (480 : ℚ)) := by
      exact (List.head_eq_of_cons_eq hp).symm
    rw [this] at hp1
    simp [demo900, demo905] at hp1

/-- C2 amended: given events at 09:00, 09:05 and 17:00 (all inside the
window) for one employee, the pairing returns exactly one pair whose
entry event is the 09:00 event, whose exit event is the 17:00 event, and
whose duration is 480 minutes; the 09:05 event is scanned over inside
the 30-minute dead zone and discarded. -/
theorem C2_amended :
    pair_events (filter_working_hours demoEvents) =
      [(demo900, demo1700, 480)] :=
  demo_pairs_eval

/-! #### Claim C8: `update_progress` semantics -/

theorem update_progress_total (tp : TP) (c : Int) (t : Option Int)
    (m : Option String) :
    (tp.update_progress c t m).progress_total = t.getD tp.progress_total := by
  unfold TP.update_progress
  rcases t with _ | t <;> rcases m with _ | s <;> simp only [Option.getD] <;>
    split_ifs <;> rfl

theorem update_progress_pct (tp : TP) (c : Int) (t : Option Int)
    (m : Option String) :
    (tp.update_progress c t m).progress_percentage =
      if 0 < t.getD tp.progress_total then pyPct c (t.getD tp.progress_total)
      else tp.progress_percentage := by
  unfold TP.update_progress
  rcases t with _ | t <;> rcases m with _ | s <;> simp only [Option.getD] <;>
    split_ifs <;> first | rfl | omega

theorem pyPct_eq_fdiv (c t : Int) (hc : 0 ≤ c) (ht : 0 < t) :
    pyPct c t = Int.fdiv (100 * c) t := by
  unfold pyPct
  rw [Int.tdiv_eq_ediv (by positivity) (le_of_lt ht),
    Int.fdiv_eq_ediv _ (le_of_lt ht)]

/-- A tracker state mid-run: total 10, percentage 50. -/
def tpHalfway : TP :=
  { TP.fresh with progress_total := 10, progress_percentage := 50 }

/-- C8 counterexample: (a) when `update_progress` sets the total to 0,
the percentage is left at its previous value (here 50), not 0; (b) with a
negative `current` the recomputation is truncation toward zero, not
floor. -/
theorem C8_counterexample :
    (tpHalfway.update_progress 5 (some 0) none).progress_percentage = 50 ∧
    (TP.fresh.update_progress (-1) (some 3) none).progress_percentage = -33 ∧
    Int.fdiv (100 * (-1)) 3 = -34 := by
  refine ⟨?_, ?_, by decide⟩ <;> decide

/-- C8 amended: the stored total is sticky (overwritten only when a total
argument is supplied); when the resulting total is positive the
percentage is recomputed as the truncation toward zero of
`current / total * 100` (Python `int(...)`), which coincides with
`floor(current / total * 100)` (`Int.fdiv`) whenever `current ≥ 0`; when
the resulting total is `≤ 0` the percentage is left unchanged; the
percentage is never assigned except through this recomputation. -/
theorem C8_update_progress_amended (tp : TP) (c : Int) (t : Option Int)
    (m : Option String) :
    ((tp.update_progress c t m).progress_total = t.getD tp.progress_total) ∧
    (0 < t.getD tp.progress_total →
      (tp.update_progress c t m).progress_percentage
          = Int.tdiv (100 * c) (t.getD tp.progress_total) ∧
      (0 ≤ c →
        (tp.update_progress c t m).progress_percentage
            = Int.fdiv (100 * c) (t.getD tp.progress_total))) ∧
    (t.getD tp.progress_total ≤ 0 →
      (tp.update_progress c t m).progress_percentage
          = tp.progress_percentage) := by
  refine ⟨update_progress_total tp c t m, fun ht => ⟨?_, fun hc => ?_⟩, fun ht => ?_⟩
  · rw [update_progress_pct, if_pos ht]
    rfl
  · rw [update_progress_pct, if_pos ht, pyPct_eq_fdiv c _ hc ht]
  · rw [update_progress_pct, if_neg (by omega)]

/-- Witness for C8 amended at a concrete call. -/
theorem C8_update_progress_amended_witness :
    (TP.fresh.update_progress 5 (some 2) none).progress_total = 2 ∧
    (TP.fresh.update_progress 5 (some 2) none).progress_percentage
        = Int.fdiv (100 * 5) 2 :=
  ⟨(C8_update_progress_amended TP.fresh 5 (some 2) none).1,
   ((C8_update_progress_amended TP.fresh 5 (some 2) none).2.1
      (by decide)).2 (by decide)⟩

/-! ### The background sync jobs (`src/tasks/device_tasks.py`)

Each job is embedded as a computation in a state-plus-exceptions monad
`JM`.  The state carries the tracker (memory + row), the destination
tables, a trace of device-session calls, and the job's local counters.
The device session (`ZKDeviceConnector` / the underlying `zk` library)
is an opaque external collaborator: an `Oracle` of `Except` results, one
per primitive operation; `.error e` models the call raising an exception
with text `e`.  Database reads/writes are infallible. -/

/-- A user record returned by `connector.get_users`. -/
structure DUser where
  uid : Nat
  name : String
  privilege : Int
  password : String
  user_id : String
deriving DecidableEq, Repr

/-- An active `Employee` row as read by the sync-to-device job. -/
structure Emp where
  user_id : Nat
  employee_id : String
  full_name : String
  privilege : Int
  password : String
deriving DecidableEq, Repr

/-- An `Employee` row as written by the sync-from-device job. -/
structure EmpRow where
  user_id : Nat
  employee_id : String
  first_name : String
  last_name : String
  privilege : Int
  password : String
  synced_to_device : Bool
  device : Nat
deriving DecidableEq, Repr

/-- A `Fingerprint` row, keyed by (employee, finger_index). -/
structure FpRow where
  employee : Nat
  finger_index : Nat
  template : String
  device : Nat
deriving DecidableEq, Repr

/-- An `AttendanceEvent` row; the timestamp is epoch seconds. -/
structure AttRow where
  device : Nat
  user_id : Nat
  timestamp : Int
  employee : Option Nat
  punch_type : Nat
  verify_mode : Nat
  work_code : Nat
deriving DecidableEq, Repr

/-- One attendance record returned by `connector.get_attendance`. -/
structure Punch where
  user_id : Nat
  timestamp : Int
  punch : Nat
  status : Nat
deriving DecidableEq, Repr

/-- One primitive device-session call, as recorded in the trace. -/
inductive DevCall where
  | connect
  | disconnect
  | getUsers
  | getAttendance
  | deleteUser (uid : Nat)
  | deleteFp (uid slot : Nat)
  | setUser (uid : Nat)
  | getAllFp (uid : Nat)
deriving DecidableEq, Repr

/-- The device session's behaviour: the result of each primitive call.
`.error e` models the call raising an exception with message `e`. -/
structure Oracle where
  connect : Except String Unit
  get_users : Except String (List DUser)
  delete_user : Nat → Except String Unit
  delete_fingerprint_template : Nat → Nat → Except String Unit
  set_user : Nat → String → Int → String → String → String → Except String Unit
  get_all_fingerprint_templates : Nat → Except String (List (Nat × String))
  get_attendance : Except String (List Punch)
  disconnect : Except String Unit

/-- The local counter variables of the job functions. -/
structure Counters where
  deleted : Nat := 0
  success : Nat := 0
  updated : Nat := 0
  errors : Nat := 0
  fingerprints : Nat := 0
  duplicates : Nat := 0
deriving DecidableEq, Repr

/-- The full mutable state a job touches. -/
structure St where
  tp : TPState
  trace : List DevCall
  cnt : Counters
  empDb : List EmpRow
  fpDb : List FpRow
  attDb : List AttRow
  syncedUids : List Nat
  deviceSaved : Bool
deriving DecidableEq, Repr

/-- The job monad: state plus Python exceptions.  An exception carries
its message and preserves the state mutated so far (Python semantics). -/
def JM (α : Type) : Type := St → St × Except String α

instance : Monad JM where
  pure a := fun s => (s, .ok a)
  bind m k := fun s =>
    match m s with
    | (s', .ok a) => k a s'
    | (s', .error e) => (s', .error e)

/-- `raise` with message. -/
def jmFail {α : Type} (msg : String) : JM α := fun s => (s, .error msg)

def getSt : JM St := fun s => (s, .ok s)

def modSt (f : St → St) : JM Unit := fun s => (f s, .ok ())

/-- Perform one device-session call: record it in the trace, return the
oracle's verdict. -/
def devCall {α : Type} (c : DevCall) (r : Except String α) : JM α :=
  fun s => ({ s with trace := s.trace ++ [c] }, r)

/-- `try:`-block reification: run `m`, turning an exception into an
`.error` VALUE so the caller can pattern-match (the `except` clause). -/
def reifyE {α : Type} (m : JM α) : JM (Except String α) := fun s =>
  match m s with
  | (s', .ok a) => (s', .ok (.ok a))
  | (s', .error e) => (s', .ok (.error e))

def updateProgress (c : Int) (t : Option Int) (m : Option String) : JM Unit :=
  modSt fun s => { s with tp := s.tp.update_progress c t m }

def markRunning : JM Unit := modSt fun s => { s with tp := s.tp.mark_running }

def markCompleted (m : Option String) : JM Unit :=
  modSt fun s => { s with tp := s.tp.mark_completed m }

def addError (d : String) : JM Unit :=
  modSt fun s => { s with tp := s.tp.add_error d }

/-- `task = TaskProgress.objects.get(task_id=task_id)`: raises when the
tracker row does not exist, otherwise re-reads the row into memory. -/
def fetchTask (taskExists : Bool) : JM Unit :=
  if taskExists then modSt fun s => { s with tp := { s.tp with mem := s.tp.db } }
  else jmFail "TaskProgress matching query does not exist."

/-- `device = Device.objects.get(pk=device_id)`. -/
def getDevice (deviceExists : Bool) : JM Unit :=
  if deviceExists then pure () else jmFail "Device matching query does not exist."

/-- `device.last_sync = timezone.now(); device.save()`. -/
def saveDeviceLastSync : JM Unit := modSt fun s => { s with deviceSaved := true }

def incDeleted : JM Unit :=
  modSt fun s => { s with cnt := { s.cnt with deleted := s.cnt.deleted + 1 } }
def incSuccess : JM Unit :=
  modSt fun s => { s with cnt := { s.cnt with success := s.cnt.success + 1 } }
def incUpdated : JM Unit :=
  modSt fun s => { s with cnt := { s.cnt with updated := s.cnt.updated + 1 } }
def incErrors : JM Unit :=
  modSt fun s => { s with cnt := { s.cnt with errors := s.cnt.errors + 1 } }
def incFingerprints : JM Unit :=
  modSt fun s => { s with cnt := { s.cnt with fingerprints := s.cnt.fingerprints + 1 } }
def incDuplicates : JM Unit :=
  modSt fun s => { s with cnt := { s.cnt with duplicates := s.cnt.duplicates + 1 } }

/-- Python `a or b` on strings (empty string is falsy). -/
def pyOrS (a b : String) : String := if a = "" then b else a

/-- Python `f"{n:04d}"` for a natural number. -/
def pad4 (n : Nat) : String :=
  let s := toString n
  String.mk (List.replicate (4 - s.length) '0') ++ s

/-- Whitespace tokenizer worker: `cur` is the (reversed) token being
accumulated. -/
def pySplitGo : List Char → List Char → List String
  | [], cur => if cur.isEmpty then [] else [String.mk cur.reverse]
  | c :: rest, cur =>
    if c.isWhitespace then
      (if cur.isEmpty then [] else [String.mk cur.reverse]) ++ pySplitGo rest []
    else pySplitGo rest (c :: cur)

/-- Python `str.split()` (no argument): split on runs of whitespace,
producing no empty tokens. -/
def pySplit (s : String) : List String := pySplitGo s.data []

/-- The uncaught-exception handler wrapping every job body: re-fetch the
tracker row and `mark_failed(f"Fatal error: {e}")`; if even that fails
(row missing), swallow the exception. -/
def handleFatal (e : String) (s : St) : St :=
  { s with
      tp := (TPState.mark_failed { mem := s.tp.db, db := s.tp.db } ("Fatal error: " ++ e)) }

/-- Run a job body under the outer `try/except Exception` boundary.  The
runner itself is a total function: no exception escapes it. -/
def runJob (body : JM Unit) (taskExists : Bool) (s0 : St) : St :=
  match body s0 with
  | (s, .ok _) => s
  | (s, .error e) => if taskExists then handleFatal e s else s

/-- Initial job state: the tracker row as created by the view, plus the
pre-existing database tables. -/
def initSt (tp0 : TP) (empDb0 : List EmpRow) (fpDb0 : List FpRow)
    (attDb0 : List AttRow) : St :=
  { tp := { mem := tp0, db := tp0 }, trace := [], cnt := {}
    empDb := empDb0, fpDb := fpDb0, attDb := attDb0
    syncedUids := [], deviceSaved := false }

/-! #### `async_sync_employees_to_device` -/

/-- The inner `for finger_idx in range(10)` loop: each slot deletion is
attempted in its own `try/except: pass`. -/
def slotDeleteLoop (o : Oracle) (uid : Nat) : List Nat → JM Unit
  | [] => pure ()
  | f :: rest => do
    let _ ← reifyE (devCall (.deleteFp uid f) (o.delete_fingerprint_template uid f))
    slotDeleteLoop o uid rest

/-- The `for i, uid in enumerate(users_to_delete)` loop: delete the user,
cascade over the 10 fingerprint slots, count the deletion; a failure of
`delete_user` is recorded via `add_error` and the loop continues. -/
def deletePhase (o : Oracle) : List Nat → JM Unit
  | [] => pure ()
  | uid :: rest => do
    let r ← reifyE (do
      let _ ← devCall (.deleteUser uid) (o.delete_user uid)
      slotDeleteLoop o uid (List.range 10)
      incDeleted)
    match r with
    | .ok _ => pure ()
    | .error e => addError ("Failed to delete user " ++ toString uid ++ ": " ++ e)
    deletePhase o rest

/-- The `for i, emp in enumerate(employees)` upload loop. -/
def uploadPhase (o : Oracle) (total : Nat) : List Emp → Nat → JM Unit
  | [], _ => pure ()
  | emp :: rest, i => do
    let r ← reifyE (do
      let _ ← devCall (.setUser emp.user_id)
        (o.set_user emp.user_id emp.full_name emp.privilege
          (pyOrS emp.password "") "0" emp.employee_id)
      modSt (fun s => { s with syncedUids := s.syncedUids ++ [emp.user_id] })
      incSuccess
      updateProgress (10 + (i : Int) + 1) none
        (some ("Synced " ++ emp.full_name ++ " (" ++ toString (i + 1) ++ "/"
          ++ toString total ++ ")")))
    match r with
    | .ok _ => pure ()
    | .error e => do
        incErrors
        addError (emp.full_name ++ ": " ++ e)
    uploadPhase o total rest (i + 1)

/-- Everything inside the job's `try:` block up to and including
`conn.disconnect()`. -/
def toDeviceMain (o : Oracle) (taskExists deviceExists : Bool)
    (employees : List Emp) : JM Unit := do
  fetchTask taskExists
  markRunning
  getDevice deviceExists
  let total_employees := employees.length
  updateProgress 0 (some ((total_employees : Int) + 10)) (some "Connecting to device...")
  let _ ← devCall .connect o.connect
  updateProgress 5 none (some "Connected. Fetching device users...")
  let device_users ← devCall .getUsers o.get_users
  let device_user_ids := (device_users.map (fun u => u.uid)).eraseDups
  updateProgress 10 none
    (some ("Found " ++ toString device_user_ids.length ++ " users on device"))
  let db_user_ids := employees.map (fun e => e.user_id)
  let users_to_delete := device_user_ids.filter (fun uid => decide (uid ∉ db_user_ids))
  deletePhase o users_to_delete
  let s ← getSt
  if s.cnt.deleted > 0 then
    updateProgress 10 none
      (some ("Removed " ++ toString s.cnt.deleted ++ " obsolete users"))
  uploadPhase o total_employees employees 0
  let _ ← devCall .disconnect o.disconnect

/-- The summary-message parts for a completed sync-to-device job. -/
def toDeviceSummary (c : Counters) : String :=
  String.intercalate ", "
    ((if c.success > 0 then ["Synced " ++ toString c.success ++ " employees"] else []) ++
     (if c.deleted > 0 then ["removed " ++ toString c.deleted ++ " obsolete users"] else []) ++
     (if c.errors > 0 then [toString c.errors ++ " errors"] else []))

/-- The tail of the job after `conn.disconnect()`: persist `last_sync`,
overwrite the tracker's result counters from the loop-local counters (an
in-memory assignment; nothing saves these fields), and mark completed. -/
def toDeviceFinish : JM Unit := do
  let s ← getSt
  saveDeviceLastSync
  modSt (fun st => { st with
    tp := { st.tp with
      mem := { st.tp.mem with
        success_count := (s.cnt.success : Int)
        error_count := (s.cnt.errors : Int) } } })
  markCompleted (some ("Completed: " ++ toDeviceSummary s.cnt))

def toDeviceBody (o : Oracle) (taskExists deviceExists : Bool)
    (employees : List Emp) : JM Unit :=
  toDeviceMain o taskExists deviceExists employees >>= fun _ => toDeviceFinish

/-- `async_sync_employees_to_device(task_id, device_id, user_id)`. -/
def async_sync_employees_to_device (o : Oracle) (taskExists deviceExists : Bool)
    (employees : List Emp) (s0 : St) : St :=
  runJob (toDeviceBody o taskExists deviceExists employees) taskExists s0

/-! #### `async_sync_employees_from_device` -/

/-- Django `Fingerprint.objects.update_or_create(employee=..,
finger_index=.., defaults=..)`: replace the first matching row in place,
else append. -/
def fp_update_or_create (db : List FpRow) (emp idx : Nat) (template : String)
    (device : Nat) : List FpRow :=
  match db with
  | [] => [⟨emp, idx, template, device⟩]
  | r :: rest =>
    if r.employee = emp ∧ r.finger_index = idx then ⟨emp, idx, template, device⟩ :: rest
    else r :: fp_update_or_create rest emp idx template device

/-- Django `Employee.objects.update_or_create(user_id=uid, defaults=d)`:
replace the first row keyed by `uid` (created = false), else append
(created = true). -/
def emp_update_or_create (db : List EmpRow) (uid : Nat) (d : EmpRow) :
    List EmpRow × Bool :=
  match db with
  | [] => ([d], true)
  | r :: rest =>
    if r.user_id = uid then (d :: rest, false)
    else
      let p := emp_update_or_create rest uid d
      (r :: p.1, p.2)

def empUpsert (uid : Nat) (d : EmpRow) : JM Bool := fun s =>
  let p := emp_update_or_create s.empDb uid d
  ({ s with empDb := p.1 }, .ok p.2)

/-- The `defaults={...}` dictionary of the employee upsert, evaluated
for a device user whose name is empty or has at least one token. -/
def mkEmpDefaults (device : Nat) (u : DUser) : EmpRow :=
  { user_id := u.uid
    employee_id := pyOrS u.user_id ("EMP" ++ pad4 u.uid)
    first_name := if u.name ≠ "" then (pySplit u.name).headD "" else "User" ++ toString u.uid
    last_name := if (pySplit u.name).length > 1
      then String.intercalate " " ((pySplit u.name).drop 1) else ""
    privilege := u.privilege
    password := pyOrS u.password ""
    synced_to_device := true
    device := device }

/-- The `for temp_id, template_data in templates.items()` loop. -/
def fpDownloadLoop (device : Nat) (employeeKey : Nat) :
    List (Nat × String) → JM Unit
  | [] => pure ()
  | (temp_id, data) :: rest => do
    modSt (fun s =>
      { s with fpDb := fp_update_or_create s.fpDb employeeKey temp_id data device })
    incFingerprints
    fpDownloadLoop device employeeKey rest

/-- The body of the per-user `try:` block: upsert the employee (a
non-empty all-whitespace device name raises `IndexError` while building
the defaults, before any write), count created/updated, download all
fingerprint templates, update progress. -/
def processDeviceUser (o : Oracle) (device : Nat) (total_users : Nat)
    (u : DUser) (i : Nat) : JM Unit := do
  if u.name ≠ "" ∧ pySplit u.name = [] then jmFail "list index out of range"
  else pure ()
  let created ← empUpsert u.uid (mkEmpDefaults device u)
  if created then incSuccess else incUpdated
  let templates ← devCall (.getAllFp u.uid) (o.get_all_fingerprint_templates u.uid)
  fpDownloadLoop device u.uid templates
  updateProgress ((15 + (85 * (i + 1)) / total_users : Nat) : Int) none
    (some ("Processed " ++ pyOrS u.name ("User " ++ toString u.uid) ++ " ("
      ++ toString (i + 1) ++ "/" ++ toString total_users ++ ")"))

/-- The `for i, user in enumerate(users)` loop with its per-user
`try/except`. -/
def fromUsersPhase (o : Oracle) (device : Nat) (total_users : Nat) :
    List DUser → Nat → JM Unit
  | [], _ => pure ()
  | u :: rest, i => do
    let r ← reifyE (processDeviceUser o device total_users u i)
    match r with
    | .ok _ => pure ()
    | .error e => do
        incErrors
        addError ("User " ++ toString u.uid ++ ": " ++ e)
    fromUsersPhase o device total_users rest (i + 1)

/-- Everything inside the job's `try:` block up to `conn.disconnect()`. -/
def fromDeviceMain (o : Oracle) (taskExists deviceExists : Bool)
    (device : Nat) : JM Unit := do
  fetchTask taskExists
  markRunning
  getDevice deviceExists
  updateProgress 0 (some 100) (some "Connecting to device...")
  let _ ← devCall .connect o.connect
  updateProgress 10 none (some "Fetching users from device...")
  let users ← devCall .getUsers o.get_users
  let total_users := users.length
  updateProgress 15 (some ((15 + (total_users * 85) / 100 : Nat) : Int))
    (some ("Found " ++ toString total_users ++ " users"))
  fromUsersPhase o device total_users users 0
  let _ ← devCall .disconnect o.disconnect

def fromDeviceSummary (c : Counters) : String :=
  "Downloaded: " ++ String.intercalate ", "
    ((if c.success > 0 then [toString c.success ++ " new employees"] else []) ++
     (if c.updated > 0 then [toString c.updated ++ " updated"] else []) ++
     (if c.fingerprints > 0 then [toString c.fingerprints ++ " fingerprints"] else []) ++
     (if c.errors > 0 then [toString c.errors ++ " errors"] else []))

def fromDeviceFinish : JM Unit := do
  let s ← getSt
  saveDeviceLastSync
  modSt (fun st => { st with
    tp := { st.tp with
      mem := { st.tp.mem with
        success_count := (s.cnt.success : Int)
        error_count := (s.cnt.errors : Int) } } })
  markCompleted (some (fromDeviceSummary s.cnt))

def fromDeviceBody (o : Oracle) (taskExists deviceExists : Bool)
    (device : Nat) : JM Unit :=
  fromDeviceMain o taskExists deviceExists device >>= fun _ => fromDeviceFinish

/-- `async_sync_employees_from_device(task_id, device_id, user_id)`. -/
def async_sync_employees_from_device (o : Oracle) (taskExists deviceExists : Bool)
    (device : Nat) (s0 : St) : St :=
  runJob (fromDeviceBody o taskExists deviceExists device) taskExists s0

/-! #### `async_download_attendance` -/

/-- Django `AttendanceEvent.objects.get_or_create(device=.., user_id=..,
timestamp=.., defaults=..)`: if a row with the key triple exists return
it untouched (created = false), else insert one from the defaults. -/
def att_get_or_create (db : List AttRow) (device uid : Nat) (ts : Int)
    (employee : Option Nat) (punch verify : Nat) : List AttRow × Bool :=
  match db.find? (fun r => decide (r.device = device ∧ r.user_id = uid ∧ r.timestamp = ts)) with
  | some _ => (db, false)
  | none =>
    (db ++ [{ device := device, user_id := uid, timestamp := ts
              employee := employee, punch_type := punch, verify_mode := verify
              work_code := 0 }], true)

/-- The body of the per-record `try:` block: resolve the employee (a
missing employee is not an error), upsert-or-skip, count, update
progress every 10 records and on the last record. -/
def attStep (device : Nat) (total_records : Nat) (rec : Punch) (i : Nat) : JM Unit := do
  let s ← getSt
  let employee := (s.empDb.find? (fun e => decide (e.user_id = rec.user_id))).map
    (fun e => e.user_id)
  let p := att_get_or_create s.attDb device rec.user_id rec.timestamp employee
    rec.punch rec.status
  modSt (fun st => { st with attDb := p.1 })
  if p.2 then incSuccess else incDuplicates
  if (i + 1) % 10 = 0 ∨ i = total_records - 1 then
    updateProgress (20 + (i : Int) + 1) none
      (some ("Processed " ++ toString (i + 1) ++ "/" ++ toString total_records
        ++ " records"))
  else pure ()

/-- The `for i, record in enumerate(attendance_records)` loop with its
per-record `try/except`. -/
def attendancePhase (device : Nat) (total_records : Nat) :
    List Punch → Nat → JM Unit
  | [], _ => pure ()
  | rec :: rest, i => do
    let r ← reifyE (attStep device total_records rec i)
    match r with
    | .ok _ => pure ()
    | .error e => do
        incErrors
        addError ("Record " ++ toString (i + 1) ++ ": " ++ e)
    attendancePhase device total_records rest (i + 1)

/-- Everything inside the job's `try:` block up to the end of the insert
loop (note: `conn.disconnect()` happens before the loop in this job). -/
def attendanceMain (o : Oracle) (taskExists deviceExists : Bool)
    (device : Nat) : JM Unit := do
  fetchTask taskExists
  markRunning
  getDevice deviceExists
  updateProgress 0 (some 100) (some "Connecting to device...")
  let _ ← devCall .connect o.connect
  updateProgress 10 none (some "Downloading attendance records...")
  let records ← devCall .getAttendance o.get_attendance
  let total_records := records.length
  updateProgress 20 (some (20 + (total_records : Int)))
    (some ("Found " ++ toString total_records ++ " records"))
  let _ ← devCall .disconnect o.disconnect
  attendancePhase device total_records records 0

def attendanceSummary (c : Counters) : String :=
  "Downloaded: " ++ String.intercalate ", "
    ((if c.success > 0 then [toString c.success ++ " new events"] else []) ++
     (if c.duplicates > 0 then [toString c.duplicates ++ " duplicates skipped"] else []) ++
     (if c.errors > 0 then [toString c.errors ++ " errors"] else []))

def attendanceFinish : JM Unit := do
  let s ← getSt
  saveDeviceLastSync
  modSt (fun st => { st with
    tp := { st.tp with
      mem := { st.tp.mem with
        success_count := (s.cnt.success : Int)
        error_count := (s.cnt.errors : Int) } } })
  markCompleted (some (attendanceSummary s.cnt))

def attendanceBody (o : Oracle) (taskExists deviceExists : Bool)
    (device : Nat) : JM Unit :=
  attendanceMain o taskExists deviceExists device >>= fun _ => attendanceFinish

/-- `async_download_attendance(task_id, device_id, user_id)`. -/
def async_download_attendance (o : Oracle) (taskExists deviceExists : Bool)
    (device : Nat) (s0 : St) : St :=
  runJob (attendanceBody o taskExists deviceExists device) taskExists s0

/-! ### Basic lemmas about the job monad -/

theorem JM.bind_apply {α β : Type} (m : JM α) (k : α → JM β) (s : St) :
    (m >>= k) s =
      match m s with
      | (s1, .ok a) => k a s1
      | (s1, .error e) => (s1, .error e) := rfl

theorem JM.bind_ok {α β : Type} {m : JM α} {k : α → JM β} {s s' : St} {b : β}
    (h : (m >>= k) s = (s', .ok b)) :
    ∃ s₁ a, m s = (s₁, .ok a) ∧ k a s₁ = (s', .ok b) := by
  rw [JM.bind_apply] at h
  rcases hm : m s with ⟨s1, r⟩
  rw [hm] at h
  cases r with
  | ok a => exact ⟨s1, a, rfl, h⟩
  | error e => simp at h

/-! ### Concrete oracles used by counterexamples -/

/-- A device on which every call succeeds and all lists are empty. -/
def oracleAllOk : Oracle :=
  { connect := .ok (), get_users := .ok [], delete_user := fun _ => .ok ()
    delete_fingerprint_template := fun _ _ => .ok ()
    set_user := fun _ _ _ _ _ _ => .ok ()
    get_all_fingerprint_templates := fun _ => .ok []
    get_attendance := .ok [], disconnect := .ok () }

/-- Everything succeeds except the final `conn.disconnect()`. -/
def oracleDisconnectFails : Oracle :=
  { oracleAllOk with disconnect := .error "Connection reset by peer" }

/-- `connector.get_users(conn)` raises after a successful `connect()`. -/
def oracleGetUsersFails : Oracle :=
  { oracleAllOk with get_users := .error "timed out" }

/-! #### Claim C1 -/

/-- C1 counterexample: a sync-to-device run over an empty roster in which
every device call succeeds except the final `disconnect()`.  The tracker
reaches 100% at the `"Found 0 users on device"` update (current 10 of
total 10); the `disconnect` exception then sends the job through
`mark_failed`, which does not touch the percentage.  The terminal tracker
is `failed` with `progress_percentage = 100`, refuting the claimed
equivalence. -/
theorem C1_counterexample :
    (async_sync_employees_to_device oracleDisconnectFails true true []
        (initSt TP.fresh [] [] [])).tp.db.status = TStatus.failed ∧
    (async_sync_employees_to_device oracleDisconnectFails true true []
        (initSt TP.fresh [] [] [])).tp.db.progress_percentage = 100 ∧
    (async_sync_employees_to_device oracleDisconnectFails true true []
        (initSt TP.fresh [] [] [])).tp.mem.progress_percentage = 100 := by
  refine ⟨?_, ?_, ?_⟩ <;> decide

/-! #### Claim C5 -/

/-- C5: on a run where `connect()` succeeds and the next device call
(`get_users`) raises, the job never calls `disconnect()` — the session
leaks on this exit path (there is no `finally` in the source). -/
theorem C5_session_leaked_on_fatal_path :
    oracleGetUsersFails.connect = .ok () ∧
    (async_sync_employees_to_device oracleGetUsersFails true true []
        (initSt TP.fresh [] [] [])).trace = [DevCall.connect, DevCall.getUsers] ∧
    DevCall.disconnect ∉
      (async_sync_employees_to_device oracleGetUsersFails true true []
        (initSt TP.fresh [] [] [])).trace ∧
    (async_sync_employees_to_device oracleGetUsersFails true true []
        (initSt TP.fresh [] [] [])).tp.db.status = TStatus.failed := by
  refine ⟨rfl, ?_, ?_, ?_⟩ <;> decide

/-! #### Claim C6 -/

theorem fatal_message_ne_empty (e : String) : ("Fatal error: " ++ e) ≠ "" := by
  intro h
  have h2 := congrArg String.length h
  have h13 : ("Fatal error: " : String).length = 13 := by decide
  have h0 : ("" : String).length = 0 := rfl
  rw [String.length_append, h13, h0] at h2
  omega

theorem handleFatal_fields (e : String) (s : St) :
    (handleFatal e s).tp.db.status = TStatus.failed ∧
    (handleFatal e s).tp.db.message = "Fatal error: " ++ e ∧
    (handleFatal e s).tp.mem.status = TStatus.failed ∧
    (handleFatal e s).tp.mem.message = "Fatal error: " ++ e :=
  ⟨rfl, rfl, rfl, rfl⟩

/-- C6: for each of the three jobs, when the tracker row exists and the
body raises a fatal exception (at any point, including before any
progress update), the runner leaves the tracker `failed` with a
non-empty message.  The runner itself is the total function `runJob`, so
no exception propagates out of it. -/
theorem C6_fatal_leaves_failed_tracker (o : Oracle) (de : Bool)
    (emps : List Emp) (dev : Nat) (s0 : St) :
    (∀ s1 e, toDeviceBody o true de emps s0 = (s1, .error e) →
      (async_sync_employees_to_device o true de emps s0).tp.db.status = TStatus.failed ∧
      (async_sync_employees_to_device o true de emps s0).tp.db.message ≠ "" ∧
      (async_sync_employees_to_device o true de emps s0).tp.mem.status = TStatus.failed) ∧
    (∀ s1 e, fromDeviceBody o true de dev s0 = (s1, .error e) →
      (async_sync_employees_from_device o true de dev s0).tp.db.status = TStatus.failed ∧
      (async_sync_employees_from_device o true de dev s0).tp.db.message ≠ "" ∧
      (async_sync_employees_from_device o true de dev s0).tp.mem.status = TStatus.failed) ∧
    (∀ s1 e, attendanceBody o true de dev s0 = (s1, .error e) →
      (async_download_attendance o true de dev s0).tp.db.status = TStatus.failed ∧
      (async_download_attendance o true de dev s0).tp.db.message ≠ "" ∧
      (async_download_attendance o true de dev s0).tp.mem.status = TStatus.failed) := by
  refine ⟨fun s1 e h => ?_, fun s1 e h => ?_, fun s1 e h => ?_⟩
  · have hred : async_sync_employees_to_device o true de emps s0 = handleFatal e s1 := by
      rw [async_sync_employees_to_device, runJob, h]
      rfl
    rw [hred]
    refine ⟨(handleFatal_fields e s1).1, ?_, (handleFatal_fields e s1).2.2.1⟩
    rw [(handleFatal_fields e s1).2.1]
    exact fatal_message_ne_empty e
  · have hred : async_sync_employees_from_device o true de dev s0 = handleFatal e s1 := by
      rw [async_sync_employees_from_device, runJob, h]
      rfl
    rw [hred]
    refine ⟨(handleFatal_fields e s1).1, ?_, (handleFatal_fields e s1).2.2.1⟩
    rw [(handleFatal_fields e s1).2.1]
    exact fatal_message_ne_empty e
  · have hred : async_download_attendance o true de dev s0 = handleFatal e s1 := by
      rw [async_download_attendance, runJob, h]
      rfl
    rw [hred]
    refine ⟨(handleFatal_fields e s1).1, ?_, (handleFatal_fields e s1).2.2.1⟩
    rw [(handleFatal_fields e s1).2.1]
    exact fatal_message_ne_empty e

/-- Witness for C6: with the device row missing, each body fails at
`Device.objects.get`, and the runner marks the tracker failed. -/
theorem C6_fatal_leaves_failed_tracker_witness :
    (async_sync_employees_to_device oracleAllOk true false []
        (initSt TP.fresh [] [] [])).tp.db.status = TStatus.failed ∧
    (async_sync_employees_from_device oracleAllOk true false 7
        (initSt TP.fresh [] [] [])).tp.db.status = TStatus.failed ∧
    (async_download_attendance oracleAllOk true false 7
        (initSt TP.fresh [] [] [])).tp.db.status = TStatus.failed :=
  ⟨((C6_fatal_leaves_failed_tracker oracleAllOk false [] 7
      (initSt TP.fresh [] [] [])).1 _ _ rfl).1,
   ((C6_fatal_leaves_failed_tracker oracleAllOk false [] 7
      (initSt TP.fresh [] [] [])).2.1 _ _ rfl).1,
   ((C6_fatal_leaves_failed_tracker oracleAllOk false [] 7
      (initSt TP.fresh [] [] [])).2.2 _ _ rfl).1⟩

theorem mark_completed_fields (s : TPState) (m : Option String) :
    (s.mark_completed m).db.status = TStatus.completed ∧
    (s.mark_completed m).db.progress_percentage = 100 ∧
    (s.mark_completed m).mem.status = TStatus.completed ∧
    (s.mark_completed m).mem.progress_percentage = 100 := by
  unfold TPState.mark_completed TP.mark_completed
  rcases m with _ | msg
  · exact ⟨rfl, rfl, rfl, rfl⟩
  · dsimp only
    split_ifs <;> exact ⟨rfl, rfl, rfl, rfl⟩

theorem toDeviceFinish_tp (s1 : St) :
    (toDeviceFinish s1).2 = Except.ok () ∧
    ∃ t m, (toDeviceFinish s1).1.tp = TPState.mark_completed t (some m) :=
  ⟨rfl, _, _, rfl⟩

theorem fromDeviceFinish_tp (s1 : St) :
    (fromDeviceFinish s1).2 = Except.ok () ∧
    ∃ t m, (fromDeviceFinish s1).1.tp = TPState.mark_completed t (some m) :=
  ⟨rfl, _, _, rfl⟩

theorem attendanceFinish_tp (s1 : St) :
    (attendanceFinish s1).2 = Except.ok () ∧
    ∃ t m, (attendanceFinish s1).1.tp = TPState.mark_completed t (some m) :=
  ⟨rfl, _, _, rfl⟩

/-- Shape of every runner: if the initial tracker row is not `completed`
and the body ends with the finish phase (whose last action is
`mark_completed`), then a terminal `completed` status implies the
percentage is 100, in the row and in memory. -/
theorem runJob_completed_pct (body main finish : JM Unit)
    (hbody : body = main >>= fun _ => finish)
    (hfin : ∀ s1, (finish s1).2 = Except.ok () ∧
      ∃ t m, (finish s1).1.tp = TPState.mark_completed t (some m))
    (te : Bool) (s0 : St)
    (h0 : s0.tp.db.status ≠ TStatus.completed)
    (hte : te = false → (body s0).1 = s0) :
    (runJob body te s0).tp.db.status = TStatus.completed →
      (runJob body te s0).tp.db.progress_percentage = 100 ∧
      (runJob body te s0).tp.mem.progress_percentage = 100 := by
  intro hc
  rcases hb : body s0 with ⟨s, r⟩
  cases r with
  | ok a =>
    have hs : runJob body te s0 = s := by rw [runJob, hb]
    rw [hbody] at hb
    obtain ⟨s1, a1, hm, hf⟩ := JM.bind_ok hb
    have hf' : finish s1 = (s, .ok a) := hf
    have h1 : s = (finish s1).1 := by rw [hf']
    obtain ⟨-, t, m, htp⟩ := hfin s1
    rw [hs, h1, htp]
    exact ⟨(mark_completed_fields t (some m)).2.1,
      (mark_completed_fields t (some m)).2.2.2⟩
  | error e =>
    cases te with
    | false =>
      have hs : runJob body false s0 = s := by rw [runJob, hb]; rfl
      have hss : s = s0 := by
        have h2 := congrArg Prod.fst hb
        rw [hte rfl] at h2
        exact h2.symm
      rw [hs, hss] at hc
      exact absurd hc h0
    | true =>
      have hs : runJob body true s0 = handleFatal e s := by rw [runJob, hb]; rfl
      rw [hs, (handleFatal_fields e s).1] at hc
      exact absurd hc (by simp)

/-- C1 amended: for each job, from a tracker row not already terminal, a
terminal status of `completed` guarantees `progress_percentage = 100`
(`mark_completed` always sets it); the converse direction of the original
claim is false — a job that ends `failed` can retain
`progress_percentage = 100` (see the counterexample). -/
theorem C1_amended (o : Oracle) (te de : Bool) (emps : List Emp) (dev : Nat)
    (s0 : St) (h0 : s0.tp.db.status ≠ TStatus.completed) :
    ((async_sync_employees_to_device o te de emps s0).tp.db.status = TStatus.completed →
      (async_sync_employees_to_device o te de emps s0).tp.db.progress_percentage = 100 ∧
      (async_sync_employees_to_device o te de emps s0).tp.mem.progress_percentage = 100) ∧
    ((async_sync_employees_from_device o te de dev s0).tp.db.status = TStatus.completed →
      (async_sync_employees_from_device o te de dev s0).tp.db.progress_percentage = 100 ∧
      (async_sync_employees_from_device o te de dev s0).tp.mem.progress_percentage = 100) ∧
    ((async_download_attendance o te de dev s0).tp.db.status = TStatus.completed →
      (async_download_attendance o te de dev s0).tp.db.progress_percentage = 100 ∧
      (async_download_attendance o te de dev s0).tp.mem.progress_percentage = 100) := by
  refine ⟨?_, ?_, ?_⟩
  · exact runJob_completed_pct (toDeviceBody o te de emps)
      (toDeviceMain o te de emps) toDeviceFinish rfl toDeviceFinish_tp te s0 h0
      (fun hfe => by subst hfe; rfl)
  · exact runJob_completed_pct (fromDeviceBody o te de dev)
      (fromDeviceMain o te de dev) fromDeviceFinish rfl fromDeviceFinish_tp te s0 h0
      (fun hfe => by subst hfe; rfl)
  · exact runJob_completed_pct (attendanceBody o te de dev)
      (attendanceMain o te de dev) attendanceFinish rfl attendanceFinish_tp te s0 h0
      (fun hfe => by subst hfe; rfl)

/-- Witness for C1 amended: an all-ok empty run of each job really ends
`completed` with percentage 100. -/
theorem C1_amended_witness :
    (async_sync_employees_to_device oracleAllOk true true []
        (initSt TP.fresh [] [] [])).tp.db.progress_percentage = 100 ∧
    (async_sync_employees_from_device oracleAllOk true true 7
        (initSt TP.fresh [] [] [])).tp.db.progress_percentage = 100 ∧
    (async_download_attendance oracleAllOk true true 7
        (initSt TP.fresh [] [] [])).tp.db.progress_percentage = 100 :=
  ⟨((C1_amended oracleAllOk true true [] 7 (initSt TP.fresh [] [] [])
      (by decide)).1 (by decide)).1,
   ((C1_amended oracleAllOk true true [] 7 (initSt TP.fresh [] [] [])
      (by decide)).2.1 (by decide)).1,
   ((C1_amended oracleAllOk true true [] 7 (initSt TP.fresh [] [] [])
      (by decide)).2.2 (by decide)).1⟩

/-! #### Claim C7 -/

theorem JM.pure_apply {α : Type} (a : α) (s : St) :
    (pure a : JM α) s = (s, .ok a) := rfl

theorem reifyE_state {α : Type} (m : JM α) (s : St) :
    ∃ v, reifyE m s = ((m s).1, .ok v) := by
  unfold reifyE
  rcases hm : m s with ⟨s', r⟩
  cases r <;> exact ⟨_, rfl⟩

theorem slotDeleteLoop_spec (o : Oracle) (uid : Nat) (slots : List Nat) (s : St) :
    slotDeleteLoop o uid slots s =
      ({ s with trace := s.trace ++ slots.map (fun f => DevCall.deleteFp uid f) },
        .ok ()) := by
  induction slots generalizing s with
  | nil =>
    simp only [List.map_nil, List.append_nil]
    rfl
  | cons f rest ih =>
    obtain ⟨v, hv⟩ := reifyE_state
      (devCall (.deleteFp uid f) (o.delete_fingerprint_template uid f)) s
    simp only [slotDeleteLoop, JM.bind_apply, hv]
    have hst : (devCall (α := Unit) (.deleteFp uid f)
        (o.delete_fingerprint_template uid f) s).1
        = { s with trace := s.trace ++ [DevCall.deleteFp uid f] } := rfl
    rw [hst, ih]
    simp [List.append_assoc]

/-- `true` iff the call returned without raising. -/
def isOkE {α : Type} : Except String α → Bool
  | .ok _ => true
  | .error _ => false

/-- The device calls issued by the delete loop: for each uid one
`delete_user` call and — whenever that call succeeded — exactly the ten
`delete_fingerprint_template` calls for slots 0..9, regardless of the
slots' own outcomes. -/
def deleteTrace (o : Oracle) (uids : List Nat) : List DevCall :=
  uids.flatMap (fun uid =>
    DevCall.deleteUser uid ::
      (if isOkE (o.delete_user uid) then
        (List.range 10).map (fun f => DevCall.deleteFp uid f)
      else []))

/-- The error strings recorded by the delete loop: one per failed
`delete_user` call; slot-deletion outcomes never contribute. -/
def deleteErrors (o : Oracle) (uids : List Nat) : List String :=
  uids.filterMap (fun uid =>
    match o.delete_user uid with
    | .ok _ => none
    | .error e => some ("Failed to delete user " ++ toString uid ++ ": " ++ e))

/-- Number of users whose `delete_user` call succeeded. -/
def deleteOkCount (o : Oracle) (uids : List Nat) : Nat :=
  (uids.filter (fun uid => isOkE (o.delete_user uid))).length

/-- Fold `add_error` over a list of error strings. -/
def addErrList (tp : TPState) (ds : List String) : TPState :=
  ds.foldl TPState.add_error tp

theorem deletePhase_spec (o : Oracle) (uids : List Nat) (s : St) :
    deletePhase o uids s =
      ({ s with trace := s.trace ++ deleteTrace o uids
              , tp := addErrList s.tp (deleteErrors o uids)
              , cnt := { s.cnt with deleted := s.cnt.deleted + deleteOkCount o uids } },
        .ok ()) := by
  induction uids generalizing s with
  | nil =>
    simp only [deleteTrace, deleteErrors, deleteOkCount, addErrList,
      List.flatMap_nil, List.filterMap_nil, List.filter_nil, List.length_nil,
      List.append_nil, List.foldl_nil, Nat.add_zero]
    rfl
  | cons uid rest ih =>
    rcases hdu : o.delete_user uid with e | ⟨⟩
    case error =>
      have h1 : (do
            let _ ← devCall (.deleteUser uid) (o.delete_user uid)
            slotDeleteLoop o uid (List.range 10)
            incDeleted : JM Unit) s
          = ({ s with trace := s.trace ++ [DevCall.deleteUser uid] }, .error e) := by
        simp only [JM.bind_apply, devCall, hdu]
      have h2 : reifyE (do
            let _ ← devCall (.deleteUser uid) (o.delete_user uid)
            slotDeleteLoop o uid (List.range 10)
            incDeleted : JM Unit) s
          = ({ s with trace := s.trace ++ [DevCall.deleteUser uid] },
              .ok (.error e)) := by
        unfold reifyE
        rw [h1]
      simp only [deletePhase, JM.bind_apply, h2, addError, modSt, ih]
      simp [deleteTrace, deleteErrors, deleteOkCount, hdu, isOkE, addErrList,
        List.append_assoc]
    case ok =>
      have h1 : (do
            let _ ← devCall (.deleteUser uid) (o.delete_user uid)
            slotDeleteLoop o uid (List.range 10)
            incDeleted : JM Unit) s
          = ({ s with
                trace := (s.trace ++ [DevCall.deleteUser uid])
                  ++ (List.range 10).map (fun f => DevCall.deleteFp uid f)
                cnt := { s.cnt with deleted := s.cnt.deleted + 1 } }, .ok ()) := by
        simp only [JM.bind_apply, devCall, hdu, slotDeleteLoop_spec, incDeleted, modSt]
      have h2 : reifyE (do
            let _ ← devCall (.deleteUser uid) (o.delete_user uid)
            slotDeleteLoop o uid (List.range 10)
            incDeleted : JM Unit) s
          = ({ s with
                trace := (s.trace ++ [DevCall.deleteUser uid])
                  ++ (List.range 10).map (fun f => DevCall.deleteFp uid f)
                cnt := { s.cnt with deleted := s.cnt.deleted + 1 } },
              .ok (.ok ())) := by
        unfold reifyE
        rw [h1]
      simp only [deletePhase, JM.bind_apply, h2, JM.pure_apply, ih]
      simp [deleteTrace, deleteErrors, deleteOkCount, hdu, isOkE, addErrList,
        List.append_assoc, List.filter_cons]
      omega

theorem addErrList_mem_details (ds : List String) :
    ∀ tp : TPState,
      (addErrList tp ds).mem.error_details = tp.mem.error_details ++ ds ∧
      (addErrList tp ds).mem.error_count = tp.mem.error_count + ds.length := by
  induction ds with
  | nil => intro tp; simp [addErrList]
  | cons d rest ih =>
    intro tp
    have h := ih (tp.add_error d)
    unfold addErrList at h ⊢
    rw [List.foldl_cons, h.1, h.2]
    unfold TPState.add_error TP.add_error
    constructor
    · simp
    · simp
      omega

/-- A device where only fingerprint-slot deletion fails. -/
def oracleSlotFails : Oracle :=
  { oracleAllOk with delete_fingerprint_template := fun _ _ => .error "slot empty" }

/-- C7: the delete loop of the roster sync (a) never raises and is fully
characterised by `deleteTrace`/`deleteErrors`/`deleteOkCount`; (b) for
every uid whose `delete_user` succeeded, all ten fingerprint-slot
deletions are attempted (they all appear in the call trace), regardless
of the slots' outcomes; (c) the tracker's error list gains exactly the
`delete_user` failures — a slot failure never appears in it; (d) the
whole phase is invariant under changing the slot-deletion behaviour of
the device, so no slot outcome can abort the user deletion or the
batch. -/
theorem C7_delete_cascades_slots_swallowed (o : Oracle) (uids : List Nat) (s : St) :
    (deletePhase o uids s =
      ({ s with trace := s.trace ++ deleteTrace o uids
              , tp := addErrList s.tp (deleteErrors o uids)
              , cnt := { s.cnt with deleted := s.cnt.deleted + deleteOkCount o uids } },
        .ok ())) ∧
    (∀ uid, uid ∈ uids → isOkE (o.delete_user uid) = true →
      ∀ f, f ∈ List.range 10 →
        DevCall.deleteFp uid f ∈ (deletePhase o uids s).1.trace) ∧
    ((deletePhase o uids s).1.tp.mem.error_details
      = s.tp.mem.error_details ++ deleteErrors o uids) ∧
    (∀ o' : Oracle, o'.delete_user = o.delete_user →
      deletePhase o' uids s = deletePhase o uids s) := by
  refine ⟨deletePhase_spec o uids s, ?_, ?_, ?_⟩
  · intro uid hmem hok f hf
    rw [deletePhase_spec]
    simp only [List.mem_append]
    right
    unfold deleteTrace
    rw [List.mem_flatMap]
    refine ⟨uid, hmem, ?_⟩
    rw [List.mem_cons]
    right
    rw [hok]
    simp only [if_pos]
    exact List.mem_map_of_mem _ hf
  · rw [deletePhase_spec]
    exact (addErrList_mem_details (deleteErrors o uids) s.tp).1
  · intro o' ho
    rw [deletePhase_spec, deletePhase_spec]
    have h1 : deleteTrace o' uids = deleteTrace o uids := by
      unfold deleteTrace; rw [ho]
    have h2 : deleteErrors o' uids = deleteErrors o uids := by
      unfold deleteErrors; rw [ho]
    have h3 : deleteOkCount o' uids = deleteOkCount o uids := by
      unfold deleteOkCount; rw [ho]
    rw [h1, h2, h3]

/-- Witness for C7: one obsolete uid whose user deletion succeeds while
every slot deletion fails — slot 3's deletion is still attempted and the
error list stays empty. -/
theorem C7_delete_cascades_slots_swallowed_witness :
    DevCall.deleteFp 5 3 ∈
      (deletePhase oracleSlotFails [5] (initSt TP.fresh [] [] [])).1.trace ∧
    (deletePhase oracleSlotFails [5]
      (initSt TP.fresh [] [] [])).1.tp.mem.error_details = [] :=
  ⟨(C7_delete_cascades_slots_swallowed oracleSlotFails [5]
      (initSt TP.fresh [] [] [])).2.1 5 (by decide) (by decide) 3 (by decide),
   by
     rw [(C7_delete_cascades_slots_swallowed oracleSlotFails [5]
       (initSt TP.fresh [] [] [])).2.2.1]
     decide⟩

/-! #### Claim C4 -/

/-- Number of stored rows matching an insertion key
(device, deviceUserId, timestamp). -/
def countMatch (db : List AttRow) (device uid : Nat) (ts : Int) : Nat :=
  (db.filter (fun r =>
    decide (r.device = device ∧ r.user_id = uid ∧ r.timestamp = ts))).length

theorem TP_update_progress_preserves (tp : TP) (c : Int) (t : Option Int)
    (m : Option String) :
    (tp.update_progress c t m).error_details = tp.error_details ∧
    (tp.update_progress c t m).error_count = tp.error_count ∧
    (tp.update_progress c t m).status = tp.status ∧
    (tp.update_progress c t m).success_count = tp.success_count := by
  unfold TP.update_progress
  rcases t with _ | t <;> rcases m with _ | m <;> dsimp only <;> split_ifs <;>
    exact ⟨rfl, rfl, rfl, rfl⟩

theorem updateProgress_preserves (c : Int) (t : Option Int) (m : Option String)
    (s : St) :
    (updateProgress c t m s).2 = Except.ok () ∧
    (updateProgress c t m s).1.attDb = s.attDb ∧
    (updateProgress c t m s).1.empDb = s.empDb ∧
    (updateProgress c t m s).1.cnt = s.cnt ∧
    (updateProgress c t m s).1.tp.mem.error_details = s.tp.mem.error_details ∧
    (updateProgress c t m s).1.tp.mem.error_count = s.tp.mem.error_count ∧
    (updateProgress c t m s).1.tp.db.error_details = s.tp.db.error_details := by
  refine ⟨rfl, rfl, rfl, rfl, ?_, ?_, rfl⟩
  · exact (TP_update_progress_preserves s.tp.mem c t m).1
  · exact (TP_update_progress_preserves s.tp.mem c t m).2.1

/-- The row built from the `defaults` of the attendance `get_or_create`. -/
def mkAttRow (device uid : Nat) (ts : Int) (emp : Option Nat) (p v : Nat) : AttRow :=
  { device := device, user_id := uid, timestamp := ts, employee := emp
    punch_type := p, verify_mode := v, work_code := 0 }

theorem att_goc_dup (db : List AttRow) (device uid : Nat) (ts : Int)
    (emp : Option Nat) (p v : Nat)
    (h : 0 < countMatch db device uid ts) :
    att_get_or_create db device uid ts emp p v = (db, false) := by
  unfold att_get_or_create
  rcases hf : db.find? (fun r =>
      decide (r.device = device ∧ r.user_id = uid ∧ r.timestamp = ts)) with _ | r
  · exfalso
    have hall := List.find?_eq_none.mp hf
    unfold countMatch at h
    have hfil : db.filter (fun r =>
        decide (r.device = device ∧ r.user_id = uid ∧ r.timestamp = ts)) = [] := by
      rw [List.filter_eq_nil_iff]
      intro a ha
      simpa using hall a ha
    rw [hfil] at h
    simp at h
  · rw [hf]

theorem att_goc_new (db : List AttRow) (device uid : Nat) (ts : Int)
    (emp : Option Nat) (p v : Nat)
    (h : countMatch db device uid ts = 0) :
    att_get_or_create db device uid ts emp p v
      = (db ++ [mkAttRow device uid ts emp p v], true) := by
  unfold att_get_or_create
  rcases hf : db.find? (fun r =>
      decide (r.device = device ∧ r.user_id = uid ∧ r.timestamp = ts)) with _ | r
  · rw [hf]
    rfl
  · exfalso
    have hr : r ∈ db := List.mem_of_find?_eq_some hf
    have hp := List.find?_some hf
    unfold countMatch at h
    have : r ∈ db.filter (fun r =>
        decide (r.device = device ∧ r.user_id = uid ∧ r.timestamp = ts)) :=
      List.mem_filter.mpr ⟨hr, hp⟩
    have hlen := List.length_pos.mpr (List.ne_nil_of_mem this)
    omega

theorem countMatch_append_hit (db : List AttRow) (device uid : Nat) (ts : Int)
    (emp : Option Nat) (p v : Nat) :
    countMatch (db ++ [mkAttRow device uid ts emp p v]) device uid ts
      = countMatch db device uid ts + 1 := by
  unfold countMatch
  rw [List.filter_append, List.length_append]
  simp [mkAttRow]

/-- The per-record duplicate path of the attendance job: when a row with
the same (device, deviceUserId, timestamp) already exists, the step
succeeds, stores nothing (no overwrite of any row), bumps the duplicate
counter only, and records no error. -/
theorem attStep_dup (device total : Nat) (rec : Punch) (i : Nat) (s : St)
    (h : 0 < countMatch s.attDb device rec.user_id rec.timestamp) :
    (attStep device total rec i s).2 = Except.ok () ∧
    (attStep device total rec i s).1.attDb = s.attDb ∧
    (attStep device total rec i s).1.cnt.duplicates = s.cnt.duplicates + 1 ∧
    (attStep device total rec i s).1.cnt.success = s.cnt.success ∧
    (attStep device total rec i s).1.cnt.errors = s.cnt.errors ∧
    (attStep device total rec i s).1.tp.mem.error_details = s.tp.mem.error_details ∧
    (attStep device total rec i s).1.tp.mem.error_count = s.tp.mem.error_count := by
  have hgoc := att_goc_dup s.attDb device rec.user_id rec.timestamp
    ((s.empDb.find? (fun e => decide (e.user_id = rec.user_id))).map (fun e => e.user_id))
    rec.punch rec.status h
  unfold attStep
  simp only [JM.bind_apply, getSt, modSt, hgoc, JM.pure_apply]
  simp only [Bool.false_eq_true, if_false]
  split_ifs with hcond
  · refine ⟨?_, ?_, ?_, ?_, ?_, ?_, ?_⟩ <;>
      simp [incDuplicates, modSt, updateProgress, JM.bind_apply,
        TPState.update_progress, TP_update_progress_preserves]
  · exact ⟨rfl, rfl, rfl, rfl, rfl, rfl, rfl⟩

/-- C4: attendance insertion is an idempotent upsert-or-skip keyed on
(device, deviceUserId, timestamp): a first insert of an absent key stores
exactly one row; re-inserting the same key — with any payload — returns
`created = false` and leaves the table bit-for-bit unchanged (no
overwrite); and in the job's per-record step a pre-existing match bumps
the duplicate counter only, never the success counter, and records no
error. -/
theorem C4_attendance_upsert_idempotent
    (db : List AttRow) (device uid : Nat) (ts : Int) (emp emp2 : Option Nat)
    (p v p2 v2 : Nat) (total i : Nat) (rec : Punch) (s : St)
    (h0 : countMatch db device uid ts = 0)
    (hdup : 0 < countMatch s.attDb device rec.user_id rec.timestamp) :
    (att_get_or_create db device uid ts emp p v
      = (db ++ [mkAttRow device uid ts emp p v], true)) ∧
    countMatch (db ++ [mkAttRow device uid ts emp p v]) device uid ts = 1 ∧
    (att_get_or_create
        (db ++ [mkAttRow device uid ts emp p v]) device uid ts emp2 p2 v2
      = (db ++ [mkAttRow device uid ts emp p v], false)) ∧
    (attStep device total rec i s).2 = Except.ok () ∧
    (attStep device total rec i s).1.attDb = s.attDb ∧
    (attStep device total rec i s).1.cnt.duplicates = s.cnt.duplicates + 1 ∧
    (attStep device total rec i s).1.cnt.success = s.cnt.success ∧
    (attStep device total rec i s).1.cnt.errors = s.cnt.errors ∧
    (attStep device total rec i s).1.tp.mem.error_details = s.tp.mem.error_details ∧
    (attStep device total rec i s).1.tp.mem.error_count = s.tp.mem.error_count := by
  have hone : countMatch (db ++ [mkAttRow device uid ts emp p v]) device uid ts = 1 := by
    rw [countMatch_append_hit, h0]
  have hstep := attStep_dup device total rec i s hdup
  exact ⟨att_goc_new db device uid ts emp p v h0, hone,
    att_goc_dup _ device uid ts emp2 p2 v2 (by omega),
    hstep.1, hstep.2.1, hstep.2.2.1, hstep.2.2.2.1, hstep.2.2.2.2.1,
    hstep.2.2.2.2.2.1, hstep.2.2.2.2.2.2⟩

/-- One device punch and its already-stored row. -/
def attDemoRec : Punch := { user_id := 2, timestamp := 100, punch := 0, status := 1 }

/-- The row the punch `attDemoRec` creates on device 1. -/
def attDemoRow : AttRow :=
  { device := 1, user_id := 2, timestamp := 100, employee := none
    punch_type := 0, verify_mode := 1, work_code := 0 }

/-- Witness for C4 at a concrete punch. -/
theorem C4_attendance_upsert_idempotent_witness :
    att_get_or_create [] 1 2 100 none 0 1 = ([attDemoRow], true) ∧
    att_get_or_create [attDemoRow] 1 2 100 (some 9) 5 5 = ([attDemoRow], false) ∧
    (attStep 1 1 attDemoRec 0 (initSt TP.fresh [] [] [attDemoRow])).1.attDb
      = [attDemoRow] ∧
    (attStep 1 1 attDemoRec 0 (initSt TP.fresh [] [] [attDemoRow])).1.cnt.duplicates
      = 1 := by
  have h := C4_attendance_upsert_idempotent [] 1 2 100 none (some 9) 0 1 5 5 1 0
    attDemoRec (initSt TP.fresh [] [] [attDemoRow]) (by decide) (by decide)
  exact ⟨h.1, h.2.2.1, h.2.2.2.2.1, h.2.2.2.2.2.1⟩

/-! #### Claim C9 -/

theorem emp_update_or_create_find (db : List EmpRow) (uid : Nat) (d : EmpRow)
    (hd : d.user_id = uid) :
    (emp_update_or_create db uid d).1.find? (fun r => decide (r.user_id = uid))
      = some d := by
  induction db with
  | nil =>
    simp [emp_update_or_create, List.find?, hd]
  | cons r rest ih =>
    unfold emp_update_or_create
    by_cases hr : r.user_id = uid
    · rw [if_pos hr]
      simp [List.find?, hd]
    · rw [if_neg hr]
      show List.find? _ (r :: (emp_update_or_create rest uid d).1) = some d
      rw [List.find?_cons_of_neg _ (by simp [hr])]
      exact ih

theorem fpDownloadLoop_spec (device k : Nat) (l : List (Nat × String)) :
    ∀ s : St, ∃ s', fpDownloadLoop device k l s = (s', .ok ())
      ∧ s'.empDb = s.empDb := by
  induction l with
  | nil => intro s; exact ⟨s, rfl, rfl⟩
  | cons td rest ih =>
    intro s
    rcases td with ⟨temp_id, data⟩
    obtain ⟨s', hs', hemp⟩ := ih
      { s with fpDb := fp_update_or_create s.fpDb k temp_id data device
             , cnt := { s.cnt with fingerprints := s.cnt.fingerprints + 1 } }
    refine ⟨s', ?_, by rw [hemp]⟩
    simp only [fpDownloadLoop, JM.bind_apply, modSt, incFingerprints]
    exact hs'

theorem processDeviceUser_empDb (o : Oracle) (device total i : Nat) (u : DUser)
    (s : St) (h : u.name = "" ∨ pySplit u.name ≠ []) :
    (processDeviceUser o device total u i s).1.empDb
      = (emp_update_or_create s.empDb u.uid (mkEmpDefaults device u)).1 := by
  have hcond : ¬(u.name ≠ "" ∧ pySplit u.name = []) := by
    rcases h with h | h
    · simp [h]
    · simp [h]
  unfold processDeviceUser
  rw [if_neg hcond]
  rcases hp : emp_update_or_create s.empDb u.uid (mkEmpDefaults device u)
    with ⟨db', created⟩
  rcases hfp : o.get_all_fingerprint_templates u.uid with e | ts
  · cases created <;>
      simp [JM.bind_apply, JM.pure_apply, empUpsert, hp, devCall, hfp,
        incSuccess, incUpdated, modSt]
  · cases created <;>
    · simp only [JM.bind_apply, JM.pure_apply, empUpsert, hp, devCall, hfp,
        incSuccess, incUpdated, modSt]
      try simp only [reduceIte]
      try rw [if_pos (by decide : (true = true))]
      try rw [if_neg (by decide : ¬ (false = true))]
      try simp only [JM.bind_apply, JM.pure_apply, devCall, modSt]
      obtain ⟨s2, hs2, hemp2⟩ := fpDownloadLoop_spec device u.uid ts _
      rw [hs2]
      simp only [JM.bind_apply]
      simp [updateProgress, modSt, hemp2]

/-- A device user whose name is a single space: truthy in Python, yet
`name.split()` is empty, so `split()[0]` raises `IndexError`. -/
def blankNameUser : DUser :=
  { uid := 1, name := " ", privilege := 0, password := "", user_id := "" }

/-- C9 counterexample: for a device user whose name is all whitespace
(non-empty, zero tokens), the per-user loop upserts NO employee at all —
`user.name.split()[0]` raises `IndexError` while the defaults are built,
and the user is recorded as a per-user error instead.  This refutes
"for every device user the local Employee is upserted". -/
theorem C9_counterexample :
    blankNameUser.name ≠ "" ∧
    (fromUsersPhase oracleAllOk 5 1 [blankNameUser] 0
      (initSt TP.fresh [] [] [])).1.empDb = [] ∧
    (fromUsersPhase oracleAllOk 5 1 [blankNameUser] 0
      (initSt TP.fresh [] [] [])).1.tp.mem.error_details
        = ["User 1: list index out of range"] := by
  refine ⟨?_, ?_, ?_⟩ <;> decide

/-- C9 amended: for every device user whose name is empty or has at
least one whitespace-separated token, the employee upsert keyed by
`deviceUserId` stores exactly the claimed fields: the first token as
first name (or `User<uid>` when the name is empty), the remaining tokens
joined by single spaces as last name, and the device-reported employee id,
or `EMP<uid zero-padded to 4 digits>` when it is blank.  (A non-empty
all-whitespace name instead aborts that user's processing — see the
counterexample.) -/
theorem C9_from_device_upsert_amended (o : Oracle) (device total i : Nat)
    (u : DUser) (s : St) (h : u.name = "" ∨ pySplit u.name ≠ []) :
    ((processDeviceUser o device total u i s).1.empDb.find?
        (fun r => decide (r.user_id = u.uid)) = some (mkEmpDefaults device u)) ∧
    ((mkEmpDefaults device u).user_id = u.uid) ∧
    (u.name = "" → (mkEmpDefaults device u).first_name = "User" ++ toString u.uid) ∧
    (∀ t ts, pySplit u.name = t :: ts → (mkEmpDefaults device u).first_name = t) ∧
    ((mkEmpDefaults device u).last_name
      = String.intercalate " " ((pySplit u.name).drop 1)) ∧
    (u.user_id = "" → (mkEmpDefaults device u).employee_id = "EMP" ++ pad4 u.uid) ∧
    (u.user_id ≠ "" → (mkEmpDefaults device u).employee_id = u.user_id) := by
  refine ⟨?_, rfl, ?_, ?_, ?_, ?_, ?_⟩
  · rw [processDeviceUser_empDb o device total i u s h]
    exact emp_update_or_create_find s.empDb u.uid (mkEmpDefaults device u) rfl
  · intro hn
    unfold mkEmpDefaults
    simp [hn]
  · intro t ts hts
    unfold mkEmpDefaults
    have hn : u.name ≠ "" := by
      intro hn
      rw [hn] at hts
      simp [pySplit, pySplitGo] at hts
    simp only [if_pos hn, hts, List.headD_cons]
  · unfold mkEmpDefaults
    dsimp only
    rcases hts : pySplit u.name with _ | ⟨t, _ | ⟨t2, rest⟩⟩ <;>
      simp [String.intercalate]
  · intro hid
    unfold mkEmpDefaults pyOrS
    simp [hid]
  · intro hid
    unfold mkEmpDefaults pyOrS
    simp [hid]

/-- A device user with a three-token name and a blank employee id. -/
def demoDUser : DUser :=
  { uid := 42, name := "Ana Maria Lopez", privilege := 0, password := ""
    user_id := "" }

/-- Witness for C9 amended at a concrete device user. -/
theorem C9_from_device_upsert_amended_witness :
    (processDeviceUser oracleAllOk 5 1 demoDUser 0
        (initSt TP.fresh [] [] [])).1.empDb.find?
          (fun r => decide (r.user_id = demoDUser.uid))
      = some (mkEmpDefaults 5 demoDUser) ∧
    (mkEmpDefaults 5 demoDUser).first_name = "Ana" ∧
    (mkEmpDefaults 5 demoDUser).last_name = "Maria Lopez" ∧
    (mkEmpDefaults 5 demoDUser).employee_id = "EMP0042" := by
  have h := C9_from_device_upsert_amended oracleAllOk 5 1 0 demoDUser
    (initSt TP.fresh [] [] []) (by decide)
  refine ⟨h.1, h.2.2.2.1 "Ana" ["Maria", "Lopez"] (by decide), ?_, ?_⟩
  · rw [h.2.2.2.2.1]
    decide
  · rw [h.2.2.2.2.2.1 rfl]
    decide

/-! #### Claim C10 -/

/-- The device verdict for uploading one employee. -/
def setUserRes (o : Oracle) (e : Emp) : Except String Unit :=
  o.set_user e.user_id e.full_name e.privilege (pyOrS e.password "") "0" e.employee_id

/-- The error strings recorded by the upload loop. -/
def uploadErrors (o : Oracle) (emps : List Emp) : List String :=
  emps.filterMap (fun e =>
    match setUserRes o e with
    | .ok _ => none
    | .error err => some (e.full_name ++ ": " ++ err))

/-- Number of employees whose upload failed (the loop-local `error_count`). -/
def uploadErrCount (o : Oracle) (emps : List Emp) : Nat :=
  (uploadErrors o emps).length

/-- Number of employees whose upload succeeded (the loop-local
`success_count`). -/
def uploadOkCount (o : Oracle) (emps : List Emp) : Nat :=
  (emps.filter (fun e => isOkE (setUserRes o e))).length

/-- The uids the roster sync deletes: device uids minus active-roster uids. -/
def toDelete (dus : List DUser) (emps : List Emp) : List Nat :=
  ((dus.map (fun u => u.uid)).eraseDups).filter
    (fun uid => decide (uid ∉ emps.map (fun e => e.user_id)))

/-- The state change of the upload loop's `except` clause
(`error_count += 1; task.add_error(...)`). -/
def St.modErr (s : St) (msg : String) : St :=
  { s with cnt := { s.cnt with errors := s.cnt.errors + 1 }
         , tp := s.tp.add_error msg }

theorem TPState_update_progress_err (s : TPState) (c : Int) (t : Option Int)
    (m : Option String) :
    (s.update_progress c t m).mem.error_details = s.mem.error_details ∧
    (s.update_progress c t m).mem.error_count = s.mem.error_count ∧
    (s.update_progress c t m).db.error_details = s.db.error_details ∧
    (s.update_progress c t m).db.error_count = s.db.error_count :=
  ⟨(TP_update_progress_preserves s.mem c t m).1,
   (TP_update_progress_preserves s.mem c t m).2.1, rfl, rfl⟩

theorem uploadPhase_fields (o : Oracle) (total : Nat) :
    ∀ (emps : List Emp) (i : Nat) (s : St),
      s.tp.db.error_details = s.tp.mem.error_details →
      s.tp.db.error_count = s.tp.mem.error_count →
      ∃ s', uploadPhase o total emps i s = (s', .ok ()) ∧
        s'.cnt.errors = s.cnt.errors + uploadErrCount o emps ∧
        s'.cnt.success = s.cnt.success + uploadOkCount o emps ∧
        s'.cnt.deleted = s.cnt.deleted ∧
        s'.tp.mem.error_details = s.tp.mem.error_details ++ uploadErrors o emps ∧
        s'.tp.mem.error_count
          = s.tp.mem.error_count + (uploadErrCount o emps : Int) ∧
        s'.tp.db.error_details = s'.tp.mem.error_details ∧
        s'.tp.db.error_count = s'.tp.mem.error_count := by
  intro emps
  induction emps with
  | nil =>
    intro i s hd hc
    refine ⟨s, rfl, ?_, ?_, rfl, ?_, ?_, hd, hc⟩ <;>
      simp [uploadErrCount, uploadOkCount, uploadErrors]
  | cons e rest ih =>
    intro i s hd hc
    rcases hse : o.set_user e.user_id e.full_name e.privilege
        (pyOrS e.password "") "0" e.employee_id with err | ⟨⟩
    · -- upload of `e` raises: error counted, detail recorded, loop continues
      have h1 : reifyE (do
            let _ ← devCall (.setUser e.user_id)
              (o.set_user e.user_id e.full_name e.privilege
                (pyOrS e.password "") "0" e.employee_id)
            modSt (fun s => { s with syncedUids := s.syncedUids ++ [e.user_id] })
            incSuccess
            updateProgress (10 + (i : Int) + 1) none
              (some ("Synced " ++ e.full_name ++ " (" ++ toString (i + 1) ++ "/"
                ++ toString total ++ ")")) : JM Unit) s
          = ({ s with trace := s.trace ++ [DevCall.setUser e.user_id] },
              .ok (.error err)) := by
        unfold reifyE
        simp only [JM.bind_apply, devCall, hse]
      obtain ⟨s', hrun, hf1, hf2, hf3, hf4, hf5, hf6, hf7⟩ :=
        ih (i + 1)
          (St.modErr { s with trace := s.trace ++ [DevCall.setUser e.user_id] }
            (e.full_name ++ ": " ++ err)) rfl rfl
      refine ⟨s', ?_, ?_, ?_, ?_, ?_, ?_, hf6, hf7⟩
      · simp only [uploadPhase, JM.bind_apply, h1, incErrors, addError, modSt]
        exact hrun
      · rw [hf1]
        simp [St.modErr, uploadErrCount, uploadErrors, hse, setUserRes,
          List.filterMap_cons]
        omega
      · rw [hf2]
        simp [St.modErr, uploadOkCount, hse, setUserRes, isOkE,
          List.filter_cons]
      · rw [hf3]
        simp [St.modErr]
      · rw [hf4]
        simp [St.modErr, TPState.add_error, TP.add_error, uploadErrors, hse,
          setUserRes]
      · rw [hf5]
        simp [St.modErr, TPState.add_error, TP.add_error, uploadErrCount,
          uploadErrors, hse, setUserRes]
        omega
    · -- upload of `e` succeeds
      have h1 : reifyE (do
            let _ ← devCall (.setUser e.user_id)
              (o.set_user e.user_id e.full_name e.privilege
                (pyOrS e.password "") "0" e.employee_id)
            modSt (fun s => { s with syncedUids := s.syncedUids ++ [e.user_id] })
            incSuccess
            updateProgress (10 + (i : Int) + 1) none
              (some ("Synced " ++ e.full_name ++ " (" ++ toString (i + 1) ++ "/"
                ++ toString total ++ ")")) : JM Unit) s
          = ({ s with
                trace := s.trace ++ [DevCall.setUser e.user_id]
                syncedUids := s.syncedUids ++ [e.user_id]
                cnt := { s.cnt with success := s.cnt.success + 1 }
                tp := s.tp.update_progress (10 + (i : Int) + 1) none
                  (some ("Synced " ++ e.full_name ++ " (" ++ toString (i + 1)
                    ++ "/" ++ toString total ++ ")")) }, .ok (.ok ())) := by
        unfold reifyE
        simp only [JM.bind_apply, devCall, hse, modSt, incSuccess, updateProgress]
      obtain ⟨s', hrun, hf1, hf2, hf3, hf4, hf5, hf6, hf7⟩ :=
        ih (i + 1)
          ({ s with
              trace := s.trace ++ [DevCall.setUser e.user_id]
              syncedUids := s.syncedUids ++ [e.user_id]
              cnt := { s.cnt with success := s.cnt.success + 1 }
              tp := s.tp.update_progress (10 + (i : Int) + 1) none
                (some ("Synced " ++ e.full_name ++ " (" ++ toString (i + 1)
                  ++ "/" ++ toString total ++ ")")) })
          (by
            rw [(TPState_update_progress_err s.tp _ _ _).1,
              (TPState_update_progress_err s.tp _ _ _).2.2.1]
            exact hd)
          (by
            rw [(TPState_update_progress_err s.tp _ _ _).2.1,
              (TPState_update_progress_err s.tp _ _ _).2.2.2]
            exact hc)
      refine ⟨s', ?_, ?_, ?_, ?_, ?_, ?_, hf6, hf7⟩
      · simp only [uploadPhase, JM.bind_apply, h1, JM.pure_apply]
        exact hrun
      · rw [hf1]
        simp [uploadErrCount, uploadErrors, hse, setUserRes]
      · rw [hf2]
        simp [uploadOkCount, hse, setUserRes, isOkE, List.filter_cons]
        omega
      · rw [hf3]
      · rw [hf4, (TPState_update_progress_err s.tp _ _ _).1]
        simp [uploadErrors, hse, setUserRes]
      · rw [hf5, (TPState_update_progress_err s.tp _ _ _).2.1]
        simp [uploadErrCount, uploadErrors, hse, setUserRes]

theorem TPState_mark_running_err (s : TPState) :
    s.mark_running.mem.error_details = s.mem.error_details ∧
    s.mark_running.mem.error_count = s.mem.error_count ∧
    s.mark_running.db.error_details = s.db.error_details ∧
    s.mark_running.db.error_count = s.db.error_count :=
  ⟨rfl, rfl, rfl, rfl⟩

theorem addErrList_sync (ds : List String) :
    ∀ tp : TPState,
      tp.db.error_details = tp.mem.error_details →
      tp.db.error_count = tp.mem.error_count →
      (addErrList tp ds).db.error_details = (addErrList tp ds).mem.error_details ∧
      (addErrList tp ds).db.error_count = (addErrList tp ds).mem.error_count := by
  induction ds with
  | nil => intro tp h1 h2; exact ⟨h1, h2⟩
  | cons d rest ih =>
    intro tp h1 h2
    exact ih (tp.add_error d) rfl rfl

theorem modSt_apply (f : St → St) (s : St) : modSt f s = (f s, .ok ()) := rfl

theorem getSt_apply (s : St) : getSt s = (s, .ok s) := rfl

theorem devCall_apply {α : Type} (c : DevCall) (r : Except String α) (s : St) :
    devCall c r s = ({ s with trace := s.trace ++ [c] }, r) := rfl

theorem updateProgress_apply (c : Int) (t : Option Int) (m : Option String)
    (s : St) :
    updateProgress c t m s
      = ({ s with tp := s.tp.update_progress c t m }, .ok ()) := rfl

theorem markRunning_apply (s : St) :
    markRunning s = ({ s with tp := s.tp.mark_running }, .ok ()) := rfl

theorem fetchTask_true_apply (s : St) :
    fetchTask true s
      = ({ s with tp := { s.tp with mem := s.tp.db } }, .ok ()) := rfl

theorem getDevice_true_apply (s : St) : getDevice true s = (s, .ok ()) := rfl

/-- A successful end-to-end run of the sync-to-device job body: the job
completes, the loop-local counters hold the upload tallies, and the
in-memory tracker's error list holds the delete failures followed by the
upload failures (the row staying in sync until the final overwrite). -/
theorem toDeviceMain_run (o : Oracle) (emps : List Emp) (dus : List DUser)
    (e0 : List EmpRow) (f0 : List FpRow) (a0 : List AttRow)
    (hconn : o.connect = .ok ()) (husers : o.get_users = .ok dus)
    (hdisc : o.disconnect = .ok ()) :
    ∃ s1, toDeviceMain o true true emps (initSt TP.fresh e0 f0 a0)
        = (s1, .ok ()) ∧
      s1.cnt.errors = uploadErrCount o emps ∧
      s1.cnt.success = uploadOkCount o emps ∧
      s1.tp.mem.error_details
        = deleteErrors o (toDelete dus emps) ++ uploadErrors o emps ∧
      s1.tp.mem.error_count
        = ((deleteErrors o (toDelete dus emps)).length + uploadErrCount o emps : Int) ∧
      s1.tp.db.error_details = s1.tp.mem.error_details ∧
      s1.tp.db.error_count = s1.tp.mem.error_count := by
  unfold toDeviceMain
  simp only [JM.bind_apply, fetchTask_true_apply, getDevice_true_apply,
    markRunning_apply, updateProgress_apply, modSt_apply, getSt_apply,
    devCall_apply, hconn, husers, JM.pure_apply]
  rw [deletePhase_spec]
  simp only [JM.bind_apply, initSt]
  have hTD : (List.filter (fun uid => decide (uid ∉ List.map (fun e => e.user_id) emps))
      (List.map (fun u => u.uid) dus).eraseDups) = toDelete dus emps := rfl
  rw [hTD]
  have hfacts : ∀ (X : TPState), X.mem.error_details = [] → X.mem.error_count = 0 →
      X.db.error_details = [] → X.db.error_count = 0 →
      (addErrList X (deleteErrors o (toDelete dus emps))).mem.error_details
        = deleteErrors o (toDelete dus emps) ∧
      (addErrList X (deleteErrors o (toDelete dus emps))).mem.error_count
        = ((deleteErrors o (toDelete dus emps)).length : Int) ∧
      (addErrList X (deleteErrors o (toDelete dus emps))).db.error_details
        = (addErrList X (deleteErrors o (toDelete dus emps))).mem.error_details ∧
      (addErrList X (deleteErrors o (toDelete dus emps))).db.error_count
        = (addErrList X (deleteErrors o (toDelete dus emps))).mem.error_count := by
    intro X h1 h2 h3 h4
    have hm := addErrList_mem_details (deleteErrors o (toDelete dus emps)) X
    have hs := addErrList_sync (deleteErrors o (toDelete dus emps)) X
      (by rw [h3, h1]) (by rw [h4, h2])
    refine ⟨?_, ?_, hs.1, hs.2⟩
    · rw [hm.1, h1]
      simp
    · rw [hm.2, h2]
      simp
  have hch := hfacts
    (((({ mem := TP.fresh, db := TP.fresh } : TPState).mark_running.update_progress 0
        (some ((emps.length : Int) + 10)) (some "Connecting to device...")).update_progress
        5 none (some "Connected. Fetching device users...")).update_progress
        10 none (some ("Found " ++ toString ((dus.map (fun u => u.uid)).eraseDups).length
          ++ " users on device")))
    (by simp [TPState_update_progress_err, TPState_mark_running_err, TP.fresh])
    (by simp [TPState_update_progress_err, TPState_mark_running_err, TP.fresh])
    (by simp [TPState_update_progress_err, TPState_mark_running_err, TP.fresh])
    (by simp [TPState_update_progress_err, TPState_mark_running_err, TP.fresh])
  by_cases hdel : 0 + deleteOkCount o (toDelete dus emps) > 0
  · rw [if_pos hdel]
    simp only [JM.bind_apply, updateProgress_apply]
    obtain ⟨s', hup, hf1, hf2, hf3, hf4, hf5, hf6, hf7⟩ :=
      uploadPhase_fields o emps.length emps 0
        ({ tp := (addErrList (((({ mem := TP.fresh, db := TP.fresh } : TPState).mark_running.update_progress 0 (some ((emps.length : Int) + 10)) (some "Connecting to device...")).update_progress 5 none (some "Connected. Fetching device users...")).update_progress 10 none (some ("Found " ++ toString ((dus.map (fun u => u.uid)).eraseDups).length ++ " users on device"))) (deleteErrors o (toDelete dus emps))).update_progress 10 none (some ("Removed " ++ toString (0 + deleteOkCount o (toDelete dus emps)) ++ " obsolete users")), trace := [] ++ [DevCall.connect] ++ [DevCall.getUsers] ++ deleteTrace o (toDelete dus emps), cnt := { deleted := 0 + deleteOkCount o (toDelete dus emps), success := 0, updated := 0, errors := 0, fingerprints := 0, duplicates := 0 }, empDb := e0, fpDb := f0, attDb := a0, syncedUids := [], deviceSaved := false } : St)
        (by
          show ((addErrList (((({ mem := TP.fresh, db := TP.fresh } : TPState).mark_running.update_progress 0 (some ((emps.length : Int) + 10)) (some "Connecting to device...")).update_progress 5 none (some "Connected. Fetching device users...")).update_progress 10 none (some ("Found " ++ toString ((dus.map (fun u => u.uid)).eraseDups).length ++ " users on device"))) (deleteErrors o (toDelete dus emps))).update_progress 10 none (some ("Removed " ++ toString (0 + deleteOkCount o (toDelete dus emps)) ++ " obsolete users"))).db.error_details = _
          rw [(TPState_update_progress_err _ _ _ _).2.2.1,
            (TPState_update_progress_err _ _ _ _).1]
          exact hch.2.2.1)
        (by
          show ((addErrList (((({ mem := TP.fresh, db := TP.fresh } : TPState).mark_running.update_progress 0 (some ((emps.length : Int) + 10)) (some "Connecting to device...")).update_progress 5 none (some "Connected. Fetching device users...")).update_progress 10 none (some ("Found " ++ toString ((dus.map (fun u => u.uid)).eraseDups).length ++ " users on device"))) (deleteErrors o (toDelete dus emps))).update_progress 10 none (some ("Removed " ++ toString (0 + deleteOkCount o (toDelete dus emps)) ++ " obsolete users"))).db.error_count = _
          rw [(TPState_update_progress_err _ _ _ _).2.2.2,
            (TPState_update_progress_err _ _ _ _).2.1]
          exact hch.2.2.2)
    rw [hup]
    simp only [devCall_apply, hdisc, JM.pure_apply]
    refine ⟨_, rfl, ?_, ?_, ?_, ?_, ?_, ?_⟩
    · show s'.cnt.errors = _
      rw [hf1]
      simp
    · show s'.cnt.success = _
      rw [hf2]
      simp
    · show s'.tp.mem.error_details = _
      rw [hf4]
      dsimp only
      rw [(TPState_update_progress_err _ _ _ _).1, hch.1]
    · show s'.tp.mem.error_count = _
      rw [hf5]
      dsimp only
      rw [(TPState_update_progress_err _ _ _ _).2.1, hch.2.1]
    · exact hf6
    · exact hf7
  · rw [if_neg hdel]
    simp only [JM.bind_apply, JM.pure_apply]
    obtain ⟨s', hup, hf1, hf2, hf3, hf4, hf5, hf6, hf7⟩ :=
      uploadPhase_fields o emps.length emps 0
        ({ tp := (addErrList (((({ mem := TP.fresh, db := TP.fresh } : TPState).mark_running.update_progress 0 (some ((emps.length : Int) + 10)) (some "Connecting to device...")).update_progress 5 none (some "Connected. Fetching device users...")).update_progress 10 none (some ("Found " ++ toString ((dus.map (fun u => u.uid)).eraseDups).length ++ " users on device"))) (deleteErrors o (toDelete dus emps))), trace := [] ++ [DevCall.connect] ++ [DevCall.getUsers] ++ deleteTrace o (toDelete dus emps), cnt := { deleted := 0 + deleteOkCount o (toDelete dus emps), success := 0, updated := 0, errors := 0, fingerprints := 0, duplicates := 0 }, empDb := e0, fpDb := f0, attDb := a0, syncedUids := [], deviceSaved := false } : St)
        (by
          show (addErrList (((({ mem := TP.fresh, db := TP.fresh } : TPState).mark_running.update_progress 0 (some ((emps.length : Int) + 10)) (some "Connecting to device...")).update_progress 5 none (some "Connected. Fetching device users...")).update_progress 10 none (some ("Found " ++ toString ((dus.map (fun u => u.uid)).eraseDups).length ++ " users on device"))) (deleteErrors o (toDelete dus emps))).db.error_details = _
          exact hch.2.2.1)
        (by
          show (addErrList (((({ mem := TP.fresh, db := TP.fresh } : TPState).mark_running.update_progress 0 (some ((emps.length : Int) + 10)) (some "Connecting to device...")).update_progress 5 none (some "Connected. Fetching device users...")).update_progress 10 none (some ("Found " ++ toString ((dus.map (fun u => u.uid)).eraseDups).length ++ " users on device"))) (deleteErrors o (toDelete dus emps))).db.error_count = _
          exact hch.2.2.2)
    rw [hup]
    simp only [devCall_apply, hdisc, JM.pure_apply]
    refine ⟨_, rfl, ?_, ?_, ?_, ?_, ?_, ?_⟩
    · show s'.cnt.errors = _
      rw [hf1]
      simp
    · show s'.cnt.success = _
      rw [hf2]
      simp
    · show s'.tp.mem.error_details = _
      rw [hf4]
      dsimp only
      rw [hch.1]
    · show s'.tp.mem.error_count = _
      rw [hf5]
      dsimp only
      rw [hch.2.1]
    · exact hf6
    · exact hf7

theorem TP_mark_completed_err (tp : TP) (m : Option String) :
    (tp.mark_completed m).error_details = tp.error_details ∧
    (tp.mark_completed m).error_count = tp.error_count := by
  unfold TP.mark_completed
  rcases m with _ | msg
  · exact ⟨rfl, rfl⟩
  · dsimp only
    split_ifs <;> exact ⟨rfl, rfl⟩

theorem toDeviceFinish_fields (s1 : St) :
    (toDeviceFinish s1).2 = Except.ok () ∧
    (toDeviceFinish s1).1.tp.mem.error_count = (s1.cnt.errors : Int) ∧
    (toDeviceFinish s1).1.tp.mem.error_details = s1.tp.mem.error_details ∧
    (toDeviceFinish s1).1.tp.db.error_count = s1.tp.db.error_count ∧
    (toDeviceFinish s1).1.tp.db.error_details = s1.tp.db.error_details ∧
    (toDeviceFinish s1).1.tp.db.status = TStatus.completed := by
  refine ⟨rfl, ?_, ?_, rfl, rfl, ?_⟩
  · exact (TP_mark_completed_err _ _).2
  · exact (TP_mark_completed_err _ _).1
  · exact (mark_completed_fields _ _).1

/-- C10: on a normal completion of the sync-to-device job, the final
in-memory tracker's `error_count` is overwritten with only the count of
per-employee upload failures, discarding the increments `add_error` made
for failed user deletions; the error-detail list still holds delete
failures followed by upload failures, so when at least one deletion
failed the in-memory `error_count` is strictly smaller than the length
of `error_details`.  (The persisted row's `error_count`, which the
overwrite never saves, keeps the full `add_error` total.) -/
theorem C10_error_counter_overwrite (o : Oracle) (emps : List Emp)
    (dus : List DUser) (e0 : List EmpRow) (f0 : List FpRow) (a0 : List AttRow)
    (hconn : o.connect = .ok ()) (husers : o.get_users = .ok dus)
    (hdisc : o.disconnect = .ok ()) :
    (async_sync_employees_to_device o true true emps
        (initSt TP.fresh e0 f0 a0)).tp.db.status = TStatus.completed ∧
    (async_sync_employees_to_device o true true emps
        (initSt TP.fresh e0 f0 a0)).tp.mem.error_count
      = (uploadErrCount o emps : Int) ∧
    (async_sync_employees_to_device o true true emps
        (initSt TP.fresh e0 f0 a0)).tp.mem.error_details.length
      = (deleteErrors o (toDelete dus emps)).length + uploadErrCount o emps ∧
    (async_sync_employees_to_device o true true emps
        (initSt TP.fresh e0 f0 a0)).tp.db.error_count
      = ((deleteErrors o (toDelete dus emps)).length + uploadErrCount o emps : Int) ∧
    (0 < (deleteErrors o (toDelete dus emps)).length →
      (async_sync_employees_to_device o true true emps
          (initSt TP.fresh e0 f0 a0)).tp.mem.error_count
        < ((async_sync_employees_to_device o true true emps
            (initSt TP.fresh e0 f0 a0)).tp.mem.error_details.length : Int)) := by
  obtain ⟨s1, hrun, hc1, hc2, hm1, hm2, hd1, hd2⟩ :=
    toDeviceMain_run o emps dus e0 f0 a0 hconn husers hdisc
  have hbody : toDeviceBody o true true emps (initSt TP.fresh e0 f0 a0)
      = toDeviceFinish s1 := by
    unfold toDeviceBody
    rw [JM.bind_apply, hrun]
  have hfin := toDeviceFinish_fields s1
  rcases hfs : toDeviceFinish s1 with ⟨sf, rf⟩
  rw [hfs] at hbody hfin
  have hrf : rf = Except.ok () := hfin.1
  subst hrf
  have hfinal : async_sync_employees_to_device o true true emps
      (initSt TP.fresh e0 f0 a0) = sf := by
    unfold async_sync_employees_to_device runJob
    rw [hbody]
  rw [hfinal]
  refine ⟨hfin.2.2.2.2.2, ?_, ?_, ?_, ?_⟩
  · rw [hfin.2.1, hc1]
  · rw [hfin.2.2.1, hm1, List.length_append]
    rfl
  · rw [hfin.2.2.2.1, hd2, hm2]
    try push_cast
    try ring
  · intro hdl
    rw [hfin.2.1, hc1, hfin.2.2.1, hm1, List.length_append]
    have : (uploadErrors o emps).length = uploadErrCount o emps := rfl
    rw [this]
    push_cast
    omega

/-- A device with one stale user whose deletion fails. -/
def staleUser : DUser :=
  { uid := 9, name := "Old", privilege := 0, password := "", user_id := "" }

/-- Oracle for the C10 witness: one device user, `delete_user` raises. -/
def oracleDeleteFails : Oracle :=
  { oracleAllOk with get_users := .ok [staleUser]
                   , delete_user := fun _ => .error "boom" }

/-- Witness for C10: empty roster, one stale device user whose deletion
fails — the job completes with in-memory `error_count = 0` but one entry
in `error_details` (and the row's `error_count` is 1). -/
theorem C10_error_counter_overwrite_witness :
    (async_sync_employees_to_device oracleDeleteFails true true []
        (initSt TP.fresh [] [] [])).tp.mem.error_count = 0 ∧
    (async_sync_employees_to_device oracleDeleteFails true true []
        (initSt TP.fresh [] [] [])).tp.mem.error_details.length = 1 ∧
    (async_sync_employees_to_device oracleDeleteFails true true []
        (initSt TP.fresh [] [] [])).tp.db.error_count = 1 := by
  have h := C10_error_counter_overwrite oracleDeleteFails [] [staleUser] [] [] []
    rfl rfl rfl
  refine ⟨?_, ?_, ?_⟩
  · rw [h.2.1]
    decide
  · rw [h.2.2.1]
    decide
  · rw [h.2.2.2.1]
    decide

end Zkteco
